import Mathlib

/-!
Verification of the indiekit-endpoint-blogroll synchronization engine.

The development shallowly embeds the core of the repository:
  - `src/lib/storage/blogs.js` (blog upsert/reconciliation, soft delete),
  - `src/lib/storage/items.js` (item upsert and retention sweep),
  - `src/lib/sync/feed.js` (per-blog item sync, uid generation),
  - `src/lib/sync/scheduler.js` (full-run orchestration, single-flight flag),
  - `src/lib/sync/microsub.js` (mirror adapter with orphan detection),
  - `src/lib/sync/feedland.js` (remote-directory adapter category resolution),
  - `src/lib/sync/opml.js` (subscription-list parse/generate).

MongoDB collections are modelled as Lean lists of documents; `updateOne`
updates the first matching document, `updateMany` maps over all matching
documents, and `{upsert: true}` appends a fresh document built from the
filter equality fields, the `$set` fields and the `$setOnInsert` defaults.
Timestamps are integers (`Int`, epoch milliseconds); the wall clock is an
explicit `now` parameter.  External effects (network fetches, the foreign
Microsub store, the statistics write resolving or rejecting) are passed in
as explicit environment parameters so that each code path of the source is
reachable in the model.
-/

namespace Blogroll

/-- A blog document in the `blogrollBlogs` collection, with the fields laid
down by `createBlog` / `upsertBlog` in `src/lib/storage/blogs.js`. -/
structure Blog where
  id : Nat
  sourceId : Option Nat
  title : String
  description : Option String
  feedUrl : String
  siteUrl : String
  feedType : String
  category : String
  tags : List String
  photo : Option String
  author : Option String
  status : String
  lastFetchAt : Option Int
  lastError : Option String
  itemCount : Nat
  pinned : Bool
  hidden : Bool
  notes : Option String
  source : Option String
  microsubFeedId : Option String
  microsubChannelId : Option String
  microsubChannelName : Option String
  skipItemFetch : Bool
  createdAt : Int
  updatedAt : Int
  deletedAt : Option Int
  deriving Repr, DecidableEq

/-- Candidate blog data passed to `upsertBlog`.  A field of type
`Option` whose source counterpart is only conditionally added to `$set`
(`if (data.field !== undefined) ...`) uses `none` for "not provided";
for `photo` and `lastFetchAt` the provided value may itself be null,
hence the nested `Option`. -/
structure BlogData where
  title : String
  feedUrl : String
  siteUrl : String
  feedType : String
  category : String
  sourceId : Option Nat
  source : Option String
  microsubFeedId : Option String
  microsubChannelId : Option String
  microsubChannelName : Option String
  skipItemFetch : Option Bool
  photo : Option (Option String)
  lastFetchAt : Option (Option Int)
  status : Option String
  deriving Repr, DecidableEq

/-- Result shape of `upsertBlog`. -/
structure BlogUpsertResult where
  upserted : Bool
  modified : Bool
  skippedDeleted : Bool
  deriving Repr, DecidableEq

/-- `updateOne` semantics: replace the first document matching `p` by its
image under `f`; all other documents are untouched. -/
def updateFirst (p : α → Bool) (f : α → α) : List α → List α
  | [] => []
  | x :: xs => if p x then f x :: xs else x :: updateFirst p f xs

/-- The match filter of `upsertBlog` (`{feedUrl}` plus `sourceId` when the
candidate carries one), `src/lib/storage/blogs.js` lines 726-729. -/
def blogMatchesFilter (d : BlogData) (b : Blog) : Bool :=
  b.feedUrl == d.feedUrl &&
    (match d.sourceId with
     | some s => b.sourceId == some s
     | none => true)

/-- The `$set` part of `upsertBlog` applied to an existing document:
base sync fields always, optional fields only when provided. -/
def applyBlogSet (d : BlogData) (now : Int) (b : Blog) : Blog :=
  { b with
    title := d.title
    siteUrl := d.siteUrl
    feedType := d.feedType
    category := d.category
    sourceId := d.sourceId
    updatedAt := now
    source := match d.source with | some s => some s | none => b.source
    microsubFeedId := match d.microsubFeedId with | some s => some s | none => b.microsubFeedId
    microsubChannelId := match d.microsubChannelId with | some s => some s | none => b.microsubChannelId
    microsubChannelName := match d.microsubChannelName with | some s => some s | none => b.microsubChannelName
    skipItemFetch := match d.skipItemFetch with | some v => v | none => b.skipItemFetch
    photo := match d.photo with | some v => v | none => b.photo
    lastFetchAt := match d.lastFetchAt with | some v => v | none => b.lastFetchAt
    status := match d.status with | some v => v | none => b.status }

/-- The document inserted by `upsertBlog` when no document matches:
filter equality fields, `$set` fields and `$setOnInsert` defaults. -/
def insertBlogDoc (d : BlogData) (now : Int) (newId : Nat) : Blog :=
  { id := newId
    sourceId := d.sourceId
    title := d.title
    description := none
    feedUrl := d.feedUrl
    siteUrl := d.siteUrl
    feedType := d.feedType
    category := d.category
    tags := []
    photo := (d.photo).getD none
    author := none
    status := (d.status).getD "active"
    lastFetchAt := (d.lastFetchAt).getD none
    lastError := none
    itemCount := 0
    pinned := false
    hidden := false
    notes := none
    source := d.source
    microsubFeedId := d.microsubFeedId
    microsubChannelId := d.microsubChannelId
    microsubChannelName := d.microsubChannelName
    skipItemFetch := (d.skipItemFetch).getD false
    createdAt := now
    updatedAt := now
    deletedAt := none }

/-- `upsertBlog` from `src/lib/storage/blogs.js` lines 713-787: skip
entirely when a soft-deleted document with this feed URL exists, otherwise
update the first match of the `{feedUrl, sourceId?}` filter or insert. -/
def upsertBlog (store : List Blog) (d : BlogData) (now : Int) (newId : Nat) :
    List Blog × BlogUpsertResult :=
  if store.any (fun b => b.feedUrl == d.feedUrl && b.status == "deleted") then
    (store, ⟨false, false, true⟩)
  else
    match store.find? (blogMatchesFilter d) with
    | some b =>
        (updateFirst (blogMatchesFilter d) (applyBlogSet d now) store,
         ⟨false, decide (applyBlogSet d now b ≠ b), false⟩)
    | none =>
        (store ++ [insertBlogDoc d now newId], ⟨true, false, false⟩)

/-- C1: if any stored blog with the candidate's feed URL is soft-deleted,
`upsertBlog` is a strict no-op on the blog collection and reports
`{upserted: false, modified: false, skippedDeleted: true}`; no automated
source sync can therefore move such a blog's status away from `deleted`
via an upsert. -/
theorem upsertBlog_soft_delete_suppression
    (store : List Blog) (d : BlogData) (now : Int) (newId : Nat)
    (h : ∃ b ∈ store, b.feedUrl = d.feedUrl ∧ b.status = "deleted") :
    upsertBlog store d now newId = (store, ⟨false, false, true⟩) := by
  obtain ⟨b, hb, hurl, hstat⟩ := h
  have hany : store.any (fun b => b.feedUrl == d.feedUrl && b.status == "deleted") = true := by
    rw [List.any_eq_true]
    exact ⟨b, hb, by simp [hurl, hstat]⟩
  simp [upsertBlog, hany]

/-- A concrete soft-deleted blog record used in witnesses and
counterexamples. -/
def sampleDeletedBlog : Blog :=
  { id := 7
    sourceId := none
    title := "Old blog"
    description := none
    feedUrl := "https://old.example/feed"
    siteUrl := "https://old.example"
    feedType := "rss"
    category := "tech"
    tags := []
    photo := none
    author := none
    status := "deleted"
    lastFetchAt := none
    lastError := none
    itemCount := 0
    pinned := false
    hidden := true
    notes := none
    source := none
    microsubFeedId := none
    microsubChannelId := none
    microsubChannelName := none
    skipItemFetch := false
    createdAt := 0
    updatedAt := 0
    deletedAt := some 5 }

/-- A concrete candidate that targets the deleted blog's feed URL. -/
def sampleCandidate : BlogData :=
  { title := "Old blog resurrected"
    feedUrl := "https://old.example/feed"
    siteUrl := "https://old.example"
    feedType := "rss"
    category := "tech"
    sourceId := some 3
    source := some "feedland"
    microsubFeedId := none
    microsubChannelId := none
    microsubChannelName := none
    skipItemFetch := none
    photo := none
    lastFetchAt := none
    status := none }

theorem upsertBlog_soft_delete_suppression_witness :
    (∃ b ∈ [sampleDeletedBlog], b.feedUrl = sampleCandidate.feedUrl ∧ b.status = "deleted") ∧
      upsertBlog [sampleDeletedBlog] sampleCandidate 100 8 =
        ([sampleDeletedBlog], ⟨false, false, true⟩) := by
  refine ⟨⟨sampleDeletedBlog, by simp, by decide⟩, ?_⟩
  exact upsertBlog_soft_delete_suppression _ _ _ _ ⟨sampleDeletedBlog, by simp, by decide⟩

/-! ## Item storage (`src/lib/storage/items.js`) -/

/-- An item document in the `blogrollItems` collection. -/
structure Item where
  blogId : Nat
  uid : String
  url : String
  title : String
  contentHtml : Option String
  contentText : Option String
  summary : String
  published : Int
  updated : Option Int
  author : Option String
  photo : Option (List String)
  categories : List String
  fetchedAt : Int
  deriving Repr, DecidableEq

/-- A normalized feed item as produced by `normalizeItem` / `parseJsonFeed`
in `src/lib/sync/feed.js`; `blogId` and `fetchedAt` are supplied by the
storage layer. -/
structure FeedItem where
  uid : String
  url : String
  title : String
  contentHtml : Option String
  contentText : Option String
  summary : String
  published : Int
  updated : Option Int
  author : Option String
  photo : Option (List String)
  categories : List String
  deriving Repr, DecidableEq

/-- Result shape of `upsertItem`. -/
structure ItemUpsertResult where
  upserted : Bool
  modified : Bool
  deriving Repr, DecidableEq

/-- The `upsertItem` match filter `{blogId, uid}`. -/
def itemKeyMatches (blogId : Nat) (uid : String) (i : Item) : Bool :=
  i.blogId == blogId && i.uid == uid

/-- The `$set` part of `upsertItem`: all mutable fields are overwritten and
the fetch timestamp refreshed; `blogId` and `uid` are not touched. -/
def applyItemSet (d : FeedItem) (now : Int) (i : Item) : Item :=
  { i with
    url := d.url
    title := d.title
    contentHtml := d.contentHtml
    contentText := d.contentText
    summary := d.summary
    published := d.published
    updated := d.updated
    author := d.author
    photo := d.photo
    categories := d.categories
    fetchedAt := now }

/-- The document inserted by `upsertItem` on a missed match:
`$setOnInsert` supplies the identity fields `blogId` and `uid`. -/
def insertItemDoc (blogId : Nat) (d : FeedItem) (now : Int) : Item :=
  { blogId := blogId
    uid := d.uid
    url := d.url
    title := d.title
    contentHtml := d.contentHtml
    contentText := d.contentText
    summary := d.summary
    published := d.published
    updated := d.updated
    author := d.author
    photo := d.photo
    categories := d.categories
    fetchedAt := now }

/-- `upsertItem` from `src/lib/storage/items.js` lines 207-238: update the
first `{blogId, uid}` match or insert a fresh document. -/
def upsertItem (store : List Item) (blogId : Nat) (d : FeedItem) (now : Int) :
    List Item × ItemUpsertResult :=
  match store.find? (itemKeyMatches blogId d.uid) with
  | some i =>
      (updateFirst (itemKeyMatches blogId d.uid) (applyItemSet d now) store,
       ⟨false, decide (applyItemSet d now i ≠ i)⟩)
  | none =>
      (store ++ [insertItemDoc blogId d now], ⟨true, false⟩)

/-- The per-feed item loop of `syncBlogItems`: upsert each normalized item,
counting the newly inserted ones (the `added` tally). -/
def upsertItemsLoop (store : List Item) (blogId : Nat) :
    List FeedItem → Int → List Item × Nat
  | [], _ => (store, 0)
  | d :: rest, now =>
      let step := upsertItem store blogId d now
      let restRun := upsertItemsLoop step.1 blogId rest now
      (restRun.1, (if step.2.upserted then 1 else 0) + restRun.2)

/-- Milliseconds per day, as in `maxAgeDays * 24 * 60 * 60 * 1000`. -/
def msPerDay : Int := 24 * 60 * 60 * 1000

/-- `deleteOldItems` from `src/lib/storage/items.js` lines 261-274:
`deleteMany({published: {$lt: cutoff}})` with
`cutoff = now - maxAgeDays days`.  Returns the retained store and the
deleted count. -/
def deleteOldItems (store : List Item) (now : Int) (maxAgeDays : Int) :
    List Item × Nat :=
  let cutoff := now - maxAgeDays * msPerDay
  ((store.filter fun i => !(i.published < cutoff)),
   (store.filter fun i => i.published < cutoff).length)

/-- `generateUid` from `src/lib/sync/feed.js` lines 198-204: a hash of
`feedUrl :: naturalItemId` truncated to 24 characters.  The SHA-256
primitive comes from the external crypto library and is abstracted as the
`hashHex` parameter. -/
def generateUid (hashHex : String → String) (feedUrl naturalId : String) : String :=
  (hashHex (feedUrl ++ "::" ++ naturalId)).take 24

/-- The identity key of an item document. -/
def itemKey (i : Item) : Nat × String := (i.blogId, i.uid)

/-- A key `(blogId, uid)` is present in an item store. -/
def keyPresent (store : List Item) (blogId : Nat) (uid : String) : Prop :=
  (blogId, uid) ∈ store.map itemKey

instance (store : List Item) (blogId : Nat) (uid : String) :
    Decidable (keyPresent store blogId uid) := by
  unfold keyPresent; infer_instance

theorem itemKeyMatches_iff (blogId : Nat) (uid : String) (i : Item) :
    itemKeyMatches blogId uid i = true ↔ i.blogId = blogId ∧ i.uid = uid := by
  simp [itemKeyMatches]

/-- `updateFirst` with a key-preserving update leaves the list of keys
untouched. -/
theorem updateFirst_map_key {β : Type} (key : α → β) (p : α → Bool) (f : α → α)
    (hf : ∀ x, p x = true → key (f x) = key x) :
    ∀ l : List α, (updateFirst p f l).map key = l.map key := by
  intro l
  induction l with
  | nil => rfl
  | cons x xs ih =>
      by_cases hp : p x
      · simp [updateFirst, hp, hf x hp]
      · simp [updateFirst, hp, ih]

theorem applyItemSet_key (d : FeedItem) (now : Int) (i : Item) :
    itemKey (applyItemSet d now i) = itemKey i := by
  simp [itemKey, applyItemSet]

/-- The key list after `upsertItem`: unchanged on a match, extended by the
candidate's key on an insert. -/
theorem upsertItem_map_key (store : List Item) (blogId : Nat)
    (d : FeedItem) (now : Int) :
    ((upsertItem store blogId d now).1.map itemKey = store.map itemKey ∧
       keyPresent store blogId d.uid) ∨
    (upsertItem store blogId d now).1.map itemKey
      = store.map itemKey ++ [(blogId, d.uid)] := by
  unfold upsertItem
  cases hfind : store.find? (itemKeyMatches blogId d.uid) with
  | some i =>
      left
      constructor
      · exact updateFirst_map_key itemKey _ _
          (fun x _ => applyItemSet_key d now x) store
      · have hmem := List.mem_of_find?_eq_some hfind
        have hmatch := List.find?_some hfind
        rw [itemKeyMatches_iff] at hmatch
        exact List.mem_map.mpr ⟨i, hmem, by simp [itemKey, hmatch.1, hmatch.2]⟩
  | none => right; simp [itemKey, insertItemDoc]

/-- Existing keys survive `upsertItem`. -/
theorem upsertItem_preserves_key (store : List Item) (blogId bid : Nat)
    (d : FeedItem) (now : Int) (uid : String)
    (h : keyPresent store bid uid) :
    keyPresent (upsertItem store blogId d now).1 bid uid := by
  unfold keyPresent at h ⊢
  rcases upsertItem_map_key store blogId d now with ⟨heq, _⟩ | heq
  · rw [heq]; exact h
  · rw [heq]; exact List.mem_append.mpr (Or.inl h)

/-- The upserted key is present afterwards. -/
theorem upsertItem_adds_key (store : List Item) (blogId : Nat)
    (d : FeedItem) (now : Int) :
    keyPresent (upsertItem store blogId d now).1 blogId d.uid := by
  unfold keyPresent
  rcases upsertItem_map_key store blogId d now with ⟨heq, hmem⟩ | heq
  · rw [heq]; exact hmem
  · rw [heq]; exact List.mem_append.mpr (Or.inr (by simp))

/-- `upsertItem` reports an insert exactly when the key was absent. -/
theorem upsertItem_upserted_iff (store : List Item) (blogId : Nat)
    (d : FeedItem) (now : Int) :
    (upsertItem store blogId d now).2.upserted = true ↔
      ¬ keyPresent store blogId d.uid := by
  unfold upsertItem
  cases hfind : store.find? (itemKeyMatches blogId d.uid) with
  | some i =>
      have hmem := List.mem_of_find?_eq_some hfind
      have hmatch := List.find?_some hfind
      rw [itemKeyMatches_iff] at hmatch
      simp only
      constructor
      · intro h; cases h
      · intro h
        exact absurd (List.mem_map.mpr
          ⟨i, hmem, by simp [itemKey, hmatch.1, hmatch.2]⟩) h
  | none =>
      have hnone : ∀ i ∈ store, ¬ itemKeyMatches blogId d.uid i = true :=
        fun i hi => by
          have := List.find?_eq_none.mp hfind i hi
          simpa using this
      simp only
      constructor
      · intro _ hmem
        obtain ⟨i, hi, hkey⟩ := List.mem_map.mp hmem
        have : i.blogId = blogId ∧ i.uid = d.uid := by
          constructor
          · exact congrArg Prod.fst hkey
          · exact congrArg Prod.snd hkey
        exact hnone i hi ((itemKeyMatches_iff blogId d.uid i).mpr this)
      · intro _; trivial

/-- Keys survive the whole upsert loop. -/
theorem upsertItemsLoop_preserves_key (blogId bid : Nat) (uid : String) :
    ∀ (l : List FeedItem) (store : List Item) (now : Int),
      keyPresent store bid uid →
      keyPresent (upsertItemsLoop store blogId l now).1 bid uid := by
  intro l
  induction l with
  | nil => intro store now h; exact h
  | cons d rest ih =>
      intro store now h
      exact ih _ now (upsertItem_preserves_key store blogId bid d now uid h)

/-- After one loop pass every item of the feed has its key present. -/
theorem upsertItemsLoop_adds_keys (blogId : Nat) :
    ∀ (l : List FeedItem) (store : List Item) (now : Int) (d : FeedItem),
      d ∈ l →
      keyPresent (upsertItemsLoop store blogId l now).1 blogId d.uid := by
  intro l
  induction l with
  | nil => intro store now d h; cases h
  | cons d0 rest ih =>
      intro store now d h
      rcases List.mem_cons.mp h with rfl | h
      · exact upsertItemsLoop_preserves_key blogId blogId d.uid rest _ now
          (upsertItem_adds_key store blogId d now)
      · exact ih _ now d h

/-- A loop pass over a feed whose keys are all already present inserts
nothing. -/
theorem upsertItemsLoop_no_new_keys (blogId : Nat) :
    ∀ (l : List FeedItem) (store : List Item) (now : Int),
      (∀ d ∈ l, keyPresent store blogId d.uid) →
      (upsertItemsLoop store blogId l now).2 = 0 := by
  intro l
  induction l with
  | nil => intro store now _; rfl
  | cons d rest ih =>
      intro store now h
      have hd := h d (by simp)
      have hup : (upsertItem store blogId d now).2.upserted = false := by
        cases hcase : (upsertItem store blogId d now).2.upserted
        · rfl
        · exact absurd hd ((upsertItem_upserted_iff store blogId d now).mp hcase)
      have hrest : ∀ d2 ∈ rest, keyPresent (upsertItem store blogId d now).1 blogId d2.uid :=
        fun d2 hd2 => upsertItem_preserves_key store blogId blogId d now d2.uid
          (h d2 (by simp [hd2]))
      simp [upsertItemsLoop, hup, ih _ now hrest]

/-- C4: (a) re-running the item sync loop on the same normalized feed
inserts zero new items; (b) on a `{blogId, uid}` match, `upsertItem`
reports `upserted = false`, rewrites exactly the mutable fields with the
fetch timestamp refreshed, and leaves the identity fields `blogId` and
`uid` of every stored record unchanged; (c) `generateUid` is a function of
the feed URL and the natural item id alone, so identical fetches derive
identical uids. -/
theorem item_sync_idempotent
    (blogId : Nat) (l : List FeedItem) (store : List Item) (now nowTwo : Int) :
    (upsertItemsLoop (upsertItemsLoop store blogId l now).1 blogId l nowTwo).2 = 0 ∧
    (∀ (s : List Item) (d : FeedItem) (t : Int) (i : Item),
        s.find? (itemKeyMatches blogId d.uid) = some i →
        (upsertItem s blogId d t).2.upserted = false ∧
        (upsertItem s blogId d t).1
          = updateFirst (itemKeyMatches blogId d.uid) (applyItemSet d t) s ∧
        (applyItemSet d t i).blogId = i.blogId ∧ (applyItemSet d t i).uid = i.uid ∧
        (applyItemSet d t i).url = d.url ∧ (applyItemSet d t i).title = d.title ∧
        (applyItemSet d t i).summary = d.summary ∧
        (applyItemSet d t i).published = d.published ∧
        (applyItemSet d t i).fetchedAt = t) ∧
    (∀ (s : List Item) (d : FeedItem) (t : Int),
        (upsertItem s blogId d t).1.map itemKey = s.map itemKey ∨
        (upsertItem s blogId d t).1.map itemKey
          = s.map itemKey ++ [(blogId, d.uid)]) ∧
    (∀ hashHex fu1 fu2 n1 n2, fu1 = fu2 → n1 = n2 →
        generateUid hashHex fu1 n1 = generateUid hashHex fu2 n2) := by
  refine ⟨?_, ?_, ?_, ?_⟩
  · exact upsertItemsLoop_no_new_keys blogId l _ nowTwo
      (fun d hd => upsertItemsLoop_adds_keys blogId l store now d hd)
  · intro s d t i hfind
    refine ⟨?_, ?_, ?_, ?_, rfl, rfl, rfl, rfl, rfl⟩
    · simp [upsertItem, hfind]
    · simp [upsertItem, hfind]
    · simp [applyItemSet]
    · simp [applyItemSet]
  · intro s d t
    rcases upsertItem_map_key s blogId d t with ⟨heq, _⟩ | heq
    · exact Or.inl heq
    · exact Or.inr heq
  · intro hashHex fu1 fu2 n1 n2 h1 h2; rw [h1, h2]

/-- A concrete normalized item used by witnesses. -/
def sampleFeedItem : FeedItem :=
  { uid := "abc123", url := "https://blog.example/post", title := "Post"
    contentHtml := some "<p>hi</p>", contentText := some "hi"
    summary := "hi", published := 1000, updated := none, author := none
    photo := none, categories := [] }

theorem item_sync_idempotent_witness :
    ([insertItemDoc 1 sampleFeedItem 50].find?
        (itemKeyMatches 1 sampleFeedItem.uid) = some (insertItemDoc 1 sampleFeedItem 50)) ∧
    (upsertItem [insertItemDoc 1 sampleFeedItem 50] 1 sampleFeedItem 60).2.upserted = false := by
  have h := item_sync_idempotent 1 [sampleFeedItem] [] 50 60
  have hfind : ([insertItemDoc 1 sampleFeedItem 50].find?
      (itemKeyMatches 1 sampleFeedItem.uid) = some (insertItemDoc 1 sampleFeedItem 50)) := by
    decide
  exact ⟨hfind, (h.2.1 [insertItemDoc 1 sampleFeedItem 50] sampleFeedItem 60 _ hfind).1⟩

/-- C6: the retention sweep retains exactly the items whose published
timestamp is at or after `now - maxAgeDays` days; an item published
exactly at the cutoff instant is retained, and the deleted count is the
number of items strictly older than the cutoff. -/
theorem deleteOldItems_boundary
    (store : List Item) (now maxAgeDays : Int) :
    (deleteOldItems store now maxAgeDays).1
        = store.filter (fun i => decide (now - maxAgeDays * msPerDay ≤ i.published)) ∧
    (∀ i ∈ store, i.published = now - maxAgeDays * msPerDay →
        i ∈ (deleteOldItems store now maxAgeDays).1) ∧
    (∀ i ∈ store, i.published < now - maxAgeDays * msPerDay →
        i ∉ (deleteOldItems store now maxAgeDays).1) ∧
    (deleteOldItems store now maxAgeDays).2
        = (store.filter (fun i => decide (i.published < now - maxAgeDays * msPerDay))).length := by
  refine ⟨?_, ?_, ?_, rfl⟩
  · unfold deleteOldItems
    simp only
    congr 1
    funext i
    by_cases h : i.published < now - maxAgeDays * msPerDay
    · simp [h, not_le.mpr h]
    · simp [h, not_lt.mp h]
  · intro i hi hpub
    unfold deleteOldItems
    simp only [List.mem_filter]
    exact ⟨hi, by simp [hpub]⟩
  · intro i hi hpub hmem
    unfold deleteOldItems at hmem
    simp only [List.mem_filter] at hmem
    exact absurd hpub (by simpa using hmem.2)

theorem deleteOldItems_boundary_witness :
    insertItemDoc 1 sampleFeedItem 50
        ∈ [insertItemDoc 1 sampleFeedItem 50]
      ∧ (insertItemDoc 1 sampleFeedItem 50).published = 1000 - 0 * msPerDay
      ∧ insertItemDoc 1 sampleFeedItem 50
          ∈ (deleteOldItems [insertItemDoc 1 sampleFeedItem 50] 1000 0).1 :=
  ⟨by simp, by decide,
   (deleteOldItems_boundary [insertItemDoc 1 sampleFeedItem 50] 1000 0).2.1
     (insertItemDoc 1 sampleFeedItem 50) (by simp) (by decide)⟩

/-! ## OPML parse / generate (`src/lib/sync/opml.js`)

The XML text layer (`xml2js` parsing, template serialization,
`escapeXml`/entity decoding) is treated as a faithful codec between the
document text and an outline tree; the embedding works on the tree.  An
absent attribute and an empty attribute are both falsy in the source, so
attributes are plain strings with `""` for absent. -/

/-- The attribute record (`outline.$` in xml2js output). -/
structure OutlineAttrs where
  text : String
  title : String
  xmlUrl : String
  htmlUrl : String
  typeAttr : String
  deriving Repr, DecidableEq

/-- An OPML outline node. -/
inductive Outline where
  | node (attrs : OutlineAttrs) (children : List Outline)
  deriving Repr

/-- A parsed blog entry, as returned by `parseOpml`. -/
structure OpmlEntry where
  title : String
  feedUrl : String
  siteUrl : String
  feedType : String
  category : String
  deriving Repr, DecidableEq

/-- `t.includes(sub)` on strings. -/
def includesSub (s sub : String) : Bool :=
  decide (2 ≤ (s.splitOn sub).length)

/-- `detectFeedType` from `src/lib/sync/opml.js` lines 63-69. -/
def detectFeedType (t : String) : String :=
  if t = "" then "rss"
  else
    let tl := t.toLower
    if includesSub tl "atom" then "atom"
    else if includesSub tl "json" then "jsonfeed"
    else "rss"

/-- `child.$.text || child.$.title || "Unknown"`. -/
def entryTitle (a : OutlineAttrs) : String :=
  if a.text ≠ "" then a.text else if a.title ≠ "" then a.title else "Unknown"

/-- One leaf entry of the parse: kept only when it carries an `xmlUrl`. -/
def leafEntry (category : String) (a : OutlineAttrs) : Option OpmlEntry :=
  if a.xmlUrl ≠ "" then
    some { title := entryTitle a, feedUrl := a.xmlUrl, siteUrl := a.htmlUrl,
           feedType := detectFeedType a.typeAttr, category := category }
  else none

/-- The child entry extracted inside a category folder (the inner loop of
`parseOpml`); the child's own children are ignored. -/
def childEntry (category : String) : Outline → Option OpmlEntry
  | .node ca _ => leafEntry category ca

/-- The entries contributed by one top-level outline: an outline with
children is a category folder whose label (`text || title || ""`) is
attached to every child leaf; a childless outline with a feed URL is an
uncategorized leaf. -/
def parseOne : Outline → List OpmlEntry
  | .node a children =>
      if children.isEmpty then
        match leafEntry "" a with
        | some e => [e]
        | none => []
      else
        children.filterMap (childEntry (if a.text ≠ "" then a.text else a.title))

/-- `parseOpml` from `src/lib/sync/opml.js` lines 15-56, on the body
outline list. -/
def parseOpml (outlines : List Outline) : List OpmlEntry :=
  outlines.flatMap parseOne

/-- A blog as consumed by `generateOpml` (title, feedUrl, siteUrl and
category are the fields the generator reads). -/
structure BlogExport where
  title : String
  feedUrl : String
  siteUrl : String
  category : String
  deriving Repr, DecidableEq

/-- `blog.category || "Uncategorized"`: the grouping key of the export. -/
def exportCatKey (b : BlogExport) : String :=
  if b.category = "" then "Uncategorized" else b.category

/-- The distinct grouping keys in first-occurrence order
(`Object.entries` iterates string keys in insertion order). -/
def catKeys : List BlogExport → List String
  | [] => []
  | b :: bs => exportCatKey b :: (catKeys bs).filter (fun c => !(c == exportCatKey b))

/-- The leaf outline serialized for one blog
(`<outline text=title type="rss" xmlUrl=... htmlUrl=.../>`). -/
def blogOutline (b : BlogExport) : Outline :=
  .node { text := b.title, title := "", xmlUrl := b.feedUrl,
          htmlUrl := b.siteUrl, typeAttr := "rss" } []

/-- `generateOpml` from `src/lib/sync/opml.js` lines 164-193, at the
outline-tree level: group the blogs by category key and emit one folder
outline per key holding that bucket's leaves in input order. -/
def generateOpml (blogs : List BlogExport) : List Outline :=
  (catKeys blogs).map fun c =>
    .node { text := c, title := "", xmlUrl := "", htmlUrl := "", typeAttr := "" }
      ((blogs.filter fun b => exportCatKey b == c).map blogOutline)

/-- The `(title, feedUrl, category)` triple of a stored blog. -/
def blogTriple (b : BlogExport) : String × String × String :=
  (b.title, b.feedUrl, b.category)

/-- The `(title, feedUrl, category)` triple of a parsed entry. -/
def entryTriple (e : OpmlEntry) : String × String × String :=
  (e.title, e.feedUrl, e.category)

theorem mem_catKeys_exists (c : String) :
    ∀ l : List BlogExport, c ∈ catKeys l → ∃ b ∈ l, exportCatKey b = c := by
  intro l
  induction l with
  | nil => intro h; cases h
  | cons b bs ih =>
      intro h
      rcases List.mem_cons.mp h with rfl | h
      · exact ⟨b, by simp, rfl⟩
      · obtain ⟨b2, hb2, hkey⟩ := ih (List.mem_filter.mp h).1
        exact ⟨b2, List.mem_cons_of_mem _ hb2, hkey⟩

theorem catKeys_filter (k : String) :
    ∀ l : List BlogExport,
      (catKeys l).filter (fun c => !(c == k))
        = catKeys (l.filter fun b => !(exportCatKey b == k)) := by
  intro l
  induction l with
  | nil => rfl
  | cons b bs ih =>
      by_cases hk : exportCatKey b = k
      · have hstep : (catKeys (b :: bs)).filter (fun c => !(c == k))
            = (catKeys bs).filter (fun c => !(c == k)) := by
          simp [catKeys, hk, List.filter_filter]
        rw [hstep, ih]
        simp [hk]
      · have hstep : (catKeys (b :: bs)).filter (fun c => !(c == k))
            = exportCatKey b ::
                ((catKeys bs).filter (fun c => !(c == k))).filter
                  (fun c => !(c == exportCatKey b)) := by
          simp only [catKeys, List.filter_cons]
          rw [if_pos (by simp [hk]), List.filter_filter, List.filter_filter]
          congr 1
          apply List.filter_congr
          intro c _
          rw [Bool.and_comm]
        rw [hstep, ih]
        simp [catKeys, hk]

theorem bind_congr_mem {l : List α} {f g : α → List β}
    (h : ∀ a ∈ l, f a = g a) : l.flatMap f = l.flatMap g := by
  induction l with
  | nil => rfl
  | cons x xs ih =>
      simp only [List.flatMap_cons]
      rw [h x (by simp), ih (fun a ha => h a (List.mem_cons_of_mem _ ha))]

/-- Grouping the list by its category keys and flattening back is a
permutation of the original list. -/
theorem catKeys_bind_filter_perm :
    ∀ l : List BlogExport,
      ((catKeys l).flatMap fun c => l.filter fun b => exportCatKey b == c).Perm l
  | [] => by simp [catKeys]
  | x :: xs => by
      set k := exportCatKey x with hk
      have hsmall : ((x :: xs).filter fun b => !(exportCatKey b == k)).length
          < (x :: xs).length := by
        have : ((x :: xs).filter fun b => !(exportCatKey b == k))
            = xs.filter fun b => !(exportCatKey b == k) := by
          simp [List.filter_cons, hk]
        rw [this]
        exact Nat.lt_succ_of_le (List.length_filter_le _ _)
      have ih := catKeys_bind_filter_perm
        ((x :: xs).filter fun b => !(exportCatKey b == k))
      have hkeys : catKeys (x :: xs)
          = k :: catKeys ((x :: xs).filter fun b => !(exportCatKey b == k)) := by
        have h1 : catKeys (x :: xs)
            = k :: (catKeys xs).filter (fun c => !(c == k)) := by
          simp [catKeys, hk]
        have h2 : ((x :: xs).filter fun b => !(exportCatKey b == k))
            = xs.filter fun b => !(exportCatKey b == k) := by
          simp [List.filter_cons, hk]
        rw [h1, h2, catKeys_filter]
      have hbindeq :
          ((catKeys ((x :: xs).filter fun b => !(exportCatKey b == k))).flatMap
              fun c => (x :: xs).filter fun b => exportCatKey b == c)
            = ((catKeys ((x :: xs).filter fun b => !(exportCatKey b == k))).flatMap
              fun c => ((x :: xs).filter fun b => !(exportCatKey b == k)).filter
                fun b => exportCatKey b == c) := by
        apply bind_congr_mem
        intro c hc
        obtain ⟨b0, hb0, hb0key⟩ := mem_catKeys_exists c _ hc
        have hck : ¬ (c = k) := by
          intro hkc
          have := (List.mem_filter.mp hb0).2
          rw [hb0key, hkc] at this
          simp at this
        rw [List.filter_filter]
        apply List.filter_congr
        intro b _
        by_cases hb : exportCatKey b = c
        · simp [hb, hck]
        · simp [hb]
      have hsplit : ((catKeys (x :: xs)).flatMap
            fun c => (x :: xs).filter fun b => exportCatKey b == c)
          = ((x :: xs).filter fun b => exportCatKey b == k) ++
            ((catKeys ((x :: xs).filter fun b => !(exportCatKey b == k))).flatMap
              fun c => ((x :: xs).filter fun b => !(exportCatKey b == k)).filter
                fun b => exportCatKey b == c) := by
        rw [hkeys, List.flatMap_cons, hbindeq]
      rw [hsplit]
      exact (List.Perm.append_left _ ih).trans (List.filter_append_perm _ _)
  termination_by l => l.length
  decreasing_by
    simpa using hsmall

theorem bind_map_comp (f : α → β) (g : β → List γ) :
    ∀ l : List α, (l.map f).flatMap g = l.flatMap (fun a => g (f a)) := by
  intro l
  induction l with
  | nil => rfl
  | cons x xs ih => simp only [List.map_cons, List.flatMap_cons, ih]

theorem filterMap_eq_map_of_mem {f : α → Option β} {g : α → β} :
    ∀ l : List α, (∀ a ∈ l, f a = some (g a)) → l.filterMap f = l.map g := by
  intro l
  induction l with
  | nil => intro _; rfl
  | cons x xs ih =>
      intro h
      rw [List.filterMap_cons, h x (by simp),
        ih (fun a ha => h a (List.mem_cons_of_mem _ ha)), List.map_cons]

theorem filterMap_map_list (f : β → Option γ) (g : α → β) :
    ∀ l : List α, (l.map g).filterMap f = l.filterMap (fun a => f (g a)) := by
  intro l
  induction l with
  | nil => rfl
  | cons x xs ih => simp only [List.map_cons, List.filterMap_cons, ih]

/-- Evaluating the parse of a generated document when every blog carries a
non-empty title and feed URL. -/
theorem parse_generateOpml (blogs : List BlogExport)
    (h : ∀ b ∈ blogs, b.title ≠ "" ∧ b.feedUrl ≠ "") :
    parseOpml (generateOpml blogs)
      = (catKeys blogs).flatMap fun c =>
          (blogs.filter fun b => exportCatKey b == c).map fun b =>
            { title := b.title, feedUrl := b.feedUrl, siteUrl := b.siteUrl,
              feedType := detectFeedType "rss", category := c } := by
  unfold parseOpml generateOpml
  rw [bind_map_comp]
  apply bind_congr_mem
  intro c hc
  obtain ⟨b0, hb0, hb0key⟩ := mem_catKeys_exists c _ hc
  have hbucket : b0 ∈ blogs.filter fun b => exportCatKey b == c :=
    List.mem_filter.mpr ⟨hb0, by simp [hb0key]⟩
  have hne : ((blogs.filter fun b => exportCatKey b == c).map blogOutline).isEmpty = false := by
    cases hl : blogs.filter fun b => exportCatKey b == c with
    | nil => rw [hl] at hbucket; cases hbucket
    | cons y ys => simp [hl]
  show parseOne (Outline.node _ _) = _
  rw [parseOne, if_neg (by simp [hne]), filterMap_map_list]
  apply filterMap_eq_map_of_mem
  intro b hb
  have hbmem := (List.mem_filter.mp hb).1
  obtain ⟨ht, hu⟩ := h b hbmem
  by_cases hcne : c = "" <;>
    simp [blogOutline, childEntry, leafEntry, entryTitle, hu, ht, hcne]

/-- C8 (amended): for blog lists in which every blog carries a non-empty
title, feed URL and category, serializing with `generateOpml` and
re-parsing with `parseOpml` reproduces the multiset of
`(title, feedUrl, category)` triples (order is the one induced by
category grouping). -/
theorem opml_roundtrip_triples (blogs : List BlogExport)
    (h : ∀ b ∈ blogs, b.title ≠ "" ∧ b.feedUrl ≠ "" ∧ b.category ≠ "") :
    ((parseOpml (generateOpml blogs)).map entryTriple).Perm
      (blogs.map blogTriple) := by
  rw [parse_generateOpml blogs (fun b hb => ⟨(h b hb).1, (h b hb).2.1⟩)]
  have hmap : ((catKeys blogs).flatMap fun c =>
      (blogs.filter fun b => exportCatKey b == c).map fun b =>
        ({ title := b.title, feedUrl := b.feedUrl, siteUrl := b.siteUrl,
           feedType := detectFeedType "rss", category := c } : OpmlEntry)).map entryTriple
      = (catKeys blogs).flatMap fun c =>
          (blogs.filter fun b => exportCatKey b == c).map blogTriple := by
    rw [List.map_flatMap]
    apply bind_congr_mem
    intro c hc
    rw [List.map_map]
    apply List.map_congr_left
    intro b hb
    have hkey : exportCatKey b = c := by
      have := (List.mem_filter.mp hb).2
      simpa using this
    have hcat : b.category = c := by
      have h3 := (h b (List.mem_filter.mp hb).1).2.2
      rw [← hkey]
      simp [exportCatKey, h3]
    simp [entryTriple, blogTriple, Function.comp, hcat]
  rw [hmap]
  have hflat : ((catKeys blogs).flatMap fun c =>
      (blogs.filter fun b => exportCatKey b == c).map blogTriple)
      = ((catKeys blogs).flatMap fun c =>
          blogs.filter fun b => exportCatKey b == c).map blogTriple := by
    rw [List.map_flatMap]
  rw [hflat]
  exact (catKeys_bind_filter_perm blogs).map blogTriple

theorem opml_roundtrip_triples_witness :
    (∀ b ∈ [(⟨"A", "https://a.example/feed", "https://a.example", "tech"⟩ : BlogExport)],
        b.title ≠ "" ∧ b.feedUrl ≠ "" ∧ b.category ≠ "") ∧
    ((parseOpml (generateOpml
        [⟨"A", "https://a.example/feed", "https://a.example", "tech"⟩])).map entryTriple).Perm
      ([(⟨"A", "https://a.example/feed", "https://a.example", "tech"⟩ : BlogExport)].map blogTriple) :=
  ⟨by decide, opml_roundtrip_triples _ (by decide)⟩

/-- C8 counterexample: a blog with an empty category exports under the
synthetic `Uncategorized` folder and re-parses with category
`"Uncategorized"`, so its `(title, feedUrl, category)` triple is not
reproduced (the claim fails without the non-empty-category proviso). -/
theorem opml_roundtrip_counterexample :
    ¬ ((parseOpml (generateOpml [⟨"A", "https://a.example/feed", "", ""⟩])).map entryTriple).Perm
        ([⟨"A", "https://a.example/feed", "", ""⟩].map blogTriple) := by
  intro hperm
  have heval : (parseOpml (generateOpml [⟨"A", "https://a.example/feed", "", ""⟩])).map entryTriple
      = [("A", "https://a.example/feed", "Uncategorized")] := by decide
  have hrhs : ([(⟨"A", "https://a.example/feed", "", ""⟩ : BlogExport)].map blogTriple)
      = [("A", "https://a.example/feed", "")] := by decide
  rw [heval, hrhs] at hperm
  have := List.singleton_perm_singleton.mp hperm
  simp at this

/-! ## Sources and the document store -/

/-- A source document in the `blogrollSources` collection
(`createSource` in `src/lib/storage/sources.js`).  The source field
`categoryPrefix` is named `categoryPrefixVal` here. -/
structure Source where
  id : Nat
  kind : String
  name : String
  url : Option String
  opmlContent : Option String
  channelFilter : Option String
  categoryPrefixVal : String
  feedlandInstance : Option String
  feedlandUsername : Option String
  feedlandCategory : Option String
  enabled : Bool
  syncInterval : Nat
  lastSyncAt : Option Int
  lastSyncError : Option String
  createdAt : Int
  updatedAt : Int
  deriving Repr, DecidableEq

/-- The `syncStats` document kept in the `blogrollMeta` collection,
overwritten by every completed run. -/
structure RunStats where
  lastFullSync : Int
  duration : Int
  sourcesTotal : Nat
  sourcesSuccess : Nat
  sourcesFailed : Nat
  blogsTotal : Nat
  blogsSuccess : Nat
  blogsFailed : Nat
  itemsAdded : Nat
  itemsDeleted : Nat
  deriving Repr, DecidableEq

/-- The blogroll document store: the four collections the core writes. -/
structure DB where
  sources : List Source
  blogs : List Blog
  items : List Item
  meta : Option RunStats
  deriving Repr, DecidableEq

/-- `updateSourceSyncStatus` from `src/lib/storage/sources.js` lines
137-153 applied to one source document. -/
def applySourceSyncStatus (success : Bool) (error : Option String) (now : Int)
    (s : Source) : Source :=
  if success then
    { s with updatedAt := now, lastSyncAt := some now, lastSyncError := none }
  else
    { s with updatedAt := now, lastSyncError := error }

/-- `updateSourceSyncStatus` on the sources collection. -/
def updateSourceSyncStatus (sources : List Source) (id : Nat) (success : Bool)
    (error : Option String) (now : Int) : List Source :=
  updateFirst (fun s => s.id == id) (applySourceSyncStatus success error now) sources

/-- The shared per-candidate upsert loop of the three source adapters:
upsert every candidate in order, tallying `added` (freshly inserted) and
`updated` (matched and modified); the id counter advances on every
insert. -/
def upsertBlogLoop : List Blog → List BlogData → Int → Nat →
    List Blog × Nat × Nat × Nat
  | store, [], _, nextId => (store, 0, 0, nextId)
  | store, d :: rest, now, nextId =>
      let step := upsertBlog store d now nextId
      let nextId2 := if step.2.upserted then nextId + 1 else nextId
      let restRun := upsertBlogLoop step.1 rest now nextId2
      (restRun.1,
       (if step.2.upserted then 1 else 0) + restRun.2.1,
       (if !step.2.upserted && step.2.modified then 1 else 0) + restRun.2.2.1,
       restRun.2.2.2)

/-! ## FeedLand adapter (`src/lib/sync/feedland.js`) -/

/-- JavaScript `a || b` on strings (empty and absent are both falsy). -/
def jsStrOr (a b : String) : String := if a = "" then b else a

/-- Collapse an optional string to a string, `none` behaving like the
falsy `null`. -/
def optStr (o : Option String) : String := o.getD ""

/-- The category resolution of `syncFeedlandSource`
(`src/lib/sync/feedland.js` lines 103-106):
`blog.category || source.feedlandCategory || source.feedlandUsername || ""`. -/
def resolveFeedlandCategory (s : Source) (parsedCategory : String) : String :=
  jsStrOr parsedCategory (jsStrOr (optStr s.feedlandCategory) (optStr s.feedlandUsername))

/-- The candidate blog built for one parsed OPML entry by
`syncFeedlandSource` (lines 108-113): the parsed fields, the resolved
category, the `feedland` provenance tag and the owning source id. -/
def feedlandCandidate (s : Source) (e : OpmlEntry) : BlogData :=
  { title := e.title
    feedUrl := e.feedUrl
    siteUrl := e.siteUrl
    feedType := e.feedType
    category := resolveFeedlandCategory s e.category
    sourceId := some s.id
    source := some "feedland"
    microsubFeedId := none
    microsubChannelId := none
    microsubChannelName := none
    skipItemFetch := none
    photo := none
    lastFetchAt := none
    status := none }

/-- All candidates a FeedLand sync upserts, in fetch order. -/
def feedlandCandidates (s : Source) (parsed : List OpmlEntry) : List BlogData :=
  parsed.map (feedlandCandidate s)

/-- `syncFeedlandSource` after a successful fetch and parse of the remote
subscription list: upsert every candidate, then record the success on the
source document. -/
def syncFeedlandSource (db : DB) (s : Source) (parsed : List OpmlEntry)
    (now : Int) (nextId : Nat) : DB × Nat × Nat :=
  let run := upsertBlogLoop db.blogs (feedlandCandidates s parsed) now nextId
  ({ db with
      blogs := run.1
      sources := updateSourceSyncStatus db.sources s.id true none now },
   run.2.1, run.2.2.1)

/-- C9: the FeedLand adapter resolves each imported blog's category from,
in priority order, the category on the parsed outline entry, else the
source's configured category filter, else the remote account username; if
the source carries a non-empty username, every candidate it upserts — and
in particular every candidate consumed by `syncFeedlandSource` — has a
non-empty category. -/
theorem feedland_category_resolution
    (s : Source) (u : String) (hu1 : s.feedlandUsername = some u) (hu2 : u ≠ "")
    (parsed : List OpmlEntry) :
    (∀ c, c ≠ "" → resolveFeedlandCategory s c = c) ∧
    (∀ c, c = "" → optStr s.feedlandCategory ≠ "" →
        resolveFeedlandCategory s c = optStr s.feedlandCategory) ∧
    (∀ c, c = "" → optStr s.feedlandCategory = "" →
        resolveFeedlandCategory s c = u) ∧
    (∀ d ∈ feedlandCandidates s parsed,
        d.category ≠ "" ∧ ∃ e ∈ parsed, d.category = resolveFeedlandCategory s e.category) ∧
    (syncFeedlandSource { sources := [s], blogs := [], items := [], meta := none }
        s parsed 0 0).1.blogs
      = (upsertBlogLoop [] (feedlandCandidates s parsed) 0 0).1 := by
  have hres : ∀ c, resolveFeedlandCategory s c ≠ "" := by
    intro c
    unfold resolveFeedlandCategory jsStrOr optStr
    rw [hu1]
    by_cases hc : c = ""
    · by_cases hf : optStr s.feedlandCategory = ""
      · unfold optStr at hf
        simp [hc, hf, hu2]
      · unfold optStr at hf
        simp only [hc, if_pos rfl, Option.getD_some]
        rw [if_neg hf]
        exact hf
    · simp [hc]
  refine ⟨?_, ?_, ?_, ?_, rfl⟩
  · intro c hc; unfold resolveFeedlandCategory jsStrOr; rw [if_neg hc]
  · intro c hc hf
    unfold resolveFeedlandCategory jsStrOr
    rw [if_pos hc, if_neg hf]
  · intro c hc hf
    unfold resolveFeedlandCategory jsStrOr
    rw [if_pos hc, if_pos hf]
    rw [hu1]
    rfl
  · intro d hd
    obtain ⟨e, he, hde⟩ := List.mem_map.mp hd
    constructor
    · rw [← hde]; exact hres e.category
    · exact ⟨e, he, by rw [← hde]; rfl⟩

/-- A concrete FeedLand source for the C9 witness. -/
def sampleFeedlandSource : Source :=
  { id := 4
    kind := "feedland"
    name := "FeedLand"
    url := none
    opmlContent := none
    channelFilter := none
    categoryPrefixVal := ""
    feedlandInstance := some "https://feedland.com"
    feedlandUsername := some "alice"
    feedlandCategory := none
    enabled := true
    syncInterval := 60
    lastSyncAt := none
    lastSyncError := none
    createdAt := 0
    updatedAt := 0 }

theorem feedland_category_resolution_witness :
    sampleFeedlandSource.feedlandUsername = some "alice" ∧ "alice" ≠ "" ∧
    (∀ d ∈ feedlandCandidates sampleFeedlandSource
        [⟨"B", "https://b.example/feed", "", "rss", ""⟩], d.category ≠ "") := by
  refine ⟨rfl, by decide, ?_⟩
  intro d hd
  exact ((feedland_category_resolution sampleFeedlandSource "alice" rfl (by decide)
    [⟨"B", "https://b.example/feed", "", "rss", ""⟩]).2.2.2.1 d hd).1

/-! ## Microsub mirror adapter (`src/lib/sync/microsub.js`)

The foreign store of the Microsub plugin (channels and feeds) is passed in
explicitly; `extractDomainFromUrl` and `extractSiteUrl` call the external
URL library and are abstracted as the `domainOf` / `siteOf` parameters. -/

/-- A document of the foreign `microsub_channels` collection. -/
structure MSChannel where
  id : Nat
  uid : String
  name : String
  deriving Repr, DecidableEq

/-- A document of the foreign `microsub_feeds` collection (`id` is the
stringified foreign object id). -/
structure MSFeed where
  id : String
  channelId : Nat
  url : String
  title : String
  status : String
  lastFetchedAt : Option Int
  photo : Option String
  deriving Repr, DecidableEq

/-- The foreign Microsub store; `available` is false when the plugin (and
hence its collections) is not installed. -/
structure MicrosubStore where
  available : Bool
  channels : List MSChannel
  feeds : List MSFeed
  deriving Repr, DecidableEq

/-- Result shape of `syncMicrosubSource`. -/
structure MicrosubSyncResult where
  success : Bool
  added : Nat
  updated : Nat
  orphaned : Nat
  total : Nat
  error : Option String
  deriving Repr, DecidableEq

/-- The channel query: all channels, or only the channel named by the
source's `channelFilter`. -/
def microsubChannels (src : Source) (ms : MicrosubStore) : List MSChannel :=
  match src.channelFilter with
  | some f => ms.channels.filter (fun c => c.uid == f)
  | none => ms.channels

/-- Every (channel, feed) pair the sync iterates, in iteration order. -/
def microsubFeedPairs (src : Source) (ms : MicrosubStore) : List (MSChannel × MSFeed) :=
  (microsubChannels src ms).flatMap fun ch =>
    (ms.feeds.filter fun f => f.channelId == ch.id).map fun f => (ch, f)

/-- `currentMicrosubFeedIds`: the foreign feed ids present in this run. -/
def currentMicrosubFeedIds (src : Source) (ms : MicrosubStore) : List String :=
  (microsubFeedPairs src ms).map fun p => p.2.id

/-- The reference blog candidate built for one foreign feed
(`src/lib/sync/microsub.js` lines 266-287). -/
def microsubCandidate (domainOf siteOf : String → String) (src : Source)
    (ch : MSChannel) (f : MSFeed) : BlogData :=
  { title := jsStrOr f.title (domainOf f.url)
    feedUrl := f.url
    siteUrl := siteOf f.url
    feedType := "rss"
    category := if src.categoryPrefixVal ≠ "" then src.categoryPrefixVal ++ ch.name else ch.name
    sourceId := some src.id
    source := some "microsub"
    microsubFeedId := some f.id
    microsubChannelId := some (toString ch.id)
    microsubChannelName := some ch.name
    skipItemFetch := some true
    photo := some f.photo
    lastFetchAt := some f.lastFetchedAt
    status := some (if f.status == "error" then "error" else "active") }

/-- The upsert stage of the mirror sync: upsert a reference blog per
foreign feed. -/
def microsubUpsertStage (domainOf siteOf : String → String) (src : Source)
    (ms : MicrosubStore) (blogs : List Blog) (now : Int) (nextId : Nat) :
    List Blog × Nat × Nat × Nat :=
  upsertBlogLoop blogs
    ((microsubFeedPairs src ms).map fun p => microsubCandidate domainOf siteOf src p.1 p.2)
    now nextId

/-- The orphan filter of the `updateMany`
(`{source, sourceId, microsubFeedId: {$nin: ids}, status: {$ne: deleted}}`);
a missing feed id behaves like `null` and is matched by `$nin`. -/
def orphanMatches (sid : Nat) (ids : List String) (b : Blog) : Bool :=
  b.source == some "microsub" && b.sourceId == some sid &&
    ids.all (fun f => !(b.microsubFeedId == some f)) && !(b.status == "deleted")

/-- The `$set` of the orphan sweep: soft-delete and hide. -/
def markOrphanDeleted (now : Int) (b : Blog) : Blog :=
  { b with status := "deleted", hidden := true, deletedAt := some now, updatedAt := now }

/-- The orphan sweep `updateMany` over the blog collection. -/
def orphanSweep (sid : Nat) (ids : List String) (now : Int) (blogs : List Blog) :
    List Blog :=
  blogs.map fun b => if orphanMatches sid ids b then markOrphanDeleted now b else b

/-- `syncMicrosubSource` from `src/lib/sync/microsub.js` lines 229-340:
fail cleanly when the plugin is absent, return early when no channel
matches, otherwise upsert a reference blog per foreign feed and — only
when at least one foreign feed id was seen — soft-delete the orphaned
mirror blogs of this source; finally record the sync status on the
source document. -/
def syncMicrosubSource (domainOf siteOf : String → String) (db : DB)
    (src : Source) (ms : MicrosubStore) (now : Int) (nextId : Nat) :
    DB × MicrosubSyncResult :=
  if !ms.available then
    let msg := "Microsub collections not available. Is the Microsub plugin installed?"
    ({ db with sources := updateSourceSyncStatus db.sources src.id false (some msg) now },
     ⟨false, 0, 0, 0, 0, some msg⟩)
  else if (microsubChannels src ms).isEmpty then
    ({ db with sources := updateSourceSyncStatus db.sources src.id true none now },
     ⟨true, 0, 0, 0, 0, none⟩)
  else
    let ids := currentMicrosubFeedIds src ms
    let stage := microsubUpsertStage domainOf siteOf src ms db.blogs now nextId
    let blogs2 := if ids.isEmpty then stage.1 else orphanSweep src.id ids now stage.1
    let orphaned := if ids.isEmpty then 0
      else (stage.1.filter (orphanMatches src.id ids)).length
    let sources2 := updateSourceSyncStatus db.sources src.id true none now
    ({ db with blogs := blogs2, sources := sources2 },
     ⟨true, stage.2.1, stage.2.2.1, orphaned, (microsubFeedPairs src ms).length, none⟩)

/-- The orphan criterion of the claim, as a proposition. -/
def orphanProp (sid : Nat) (ids : List String) (b : Blog) : Prop :=
  b.source = some "microsub" ∧ b.sourceId = some sid ∧
    (∀ f ∈ ids, b.microsubFeedId ≠ some f) ∧ b.status ≠ "deleted"

instance (sid : Nat) (ids : List String) (b : Blog) :
    Decidable (orphanProp sid ids b) := by
  unfold orphanProp; infer_instance

theorem orphanMatches_iff (sid : Nat) (ids : List String) (b : Blog) :
    orphanMatches sid ids b = true ↔ orphanProp sid ids b := by
  simp only [orphanMatches, orphanProp, Bool.and_eq_true, beq_iff_eq,
    List.all_eq_true, Bool.not_eq_eq_eq_not, Bool.not_true, beq_eq_false_iff_ne,
    ne_eq]
  tauto

/-- C5 (amended): whenever the current foreign feed set is non-empty, the
mirror sync soft-deletes exactly the previously-mirrored, not-yet-deleted
blogs of this source whose foreign feed id is absent from the set (as the
blog collection stands after the upsert stage), and the sweep leaves every
other blog record exactly unchanged. -/
theorem microsub_orphan_detection
    (domainOf siteOf : String → String) (db : DB) (src : Source)
    (ms : MicrosubStore) (now : Int) (nextId : Nat)
    (havail : ms.available = true)
    (hchan : (microsubChannels src ms).isEmpty = false)
    (hids : currentMicrosubFeedIds src ms ≠ []) :
    (syncMicrosubSource domainOf siteOf db src ms now nextId).1.blogs
      = orphanSweep src.id (currentMicrosubFeedIds src ms) now
          (microsubUpsertStage domainOf siteOf src ms db.blogs now nextId).1 ∧
    (syncMicrosubSource domainOf siteOf db src ms now nextId).1.blogs.length
      = (microsubUpsertStage domainOf siteOf src ms db.blogs now nextId).1.length ∧
    (∀ (i : Nat)
        (h1 : i < (microsubUpsertStage domainOf siteOf src ms db.blogs now nextId).1.length)
        (h2 : i < (syncMicrosubSource domainOf siteOf db src ms now nextId).1.blogs.length),
      (orphanProp src.id (currentMicrosubFeedIds src ms)
          ((microsubUpsertStage domainOf siteOf src ms db.blogs now nextId).1.get ⟨i, h1⟩) →
        ((syncMicrosubSource domainOf siteOf db src ms now nextId).1.blogs.get ⟨i, h2⟩).status = "deleted" ∧
        ((syncMicrosubSource domainOf siteOf db src ms now nextId).1.blogs.get ⟨i, h2⟩).hidden = true) ∧
      (¬ orphanProp src.id (currentMicrosubFeedIds src ms)
          ((microsubUpsertStage domainOf siteOf src ms db.blogs now nextId).1.get ⟨i, h1⟩) →
        (syncMicrosubSource domainOf siteOf db src ms now nextId).1.blogs.get ⟨i, h2⟩
          = (microsubUpsertStage domainOf siteOf src ms db.blogs now nextId).1.get ⟨i, h1⟩)) := by
  have hidsb : (currentMicrosubFeedIds src ms).isEmpty = false := by
    cases hl : currentMicrosubFeedIds src ms with
    | nil => exact absurd hl hids
    | cons y ys => simp
  have hblogs : (syncMicrosubSource domainOf siteOf db src ms now nextId).1.blogs
      = orphanSweep src.id (currentMicrosubFeedIds src ms) now
          (microsubUpsertStage domainOf siteOf src ms db.blogs now nextId).1 := by
    unfold syncMicrosubSource
    rw [havail]
    simp only [Bool.not_true, Bool.false_eq_true, if_false, hchan, hidsb]
  refine ⟨hblogs, ?_, ?_⟩
  · rw [hblogs]; simp [orphanSweep]
  · intro i h1 h2
    have hget : (syncMicrosubSource domainOf siteOf db src ms now nextId).1.blogs.get ⟨i, h2⟩
        = if orphanMatches src.id (currentMicrosubFeedIds src ms)
              ((microsubUpsertStage domainOf siteOf src ms db.blogs now nextId).1.get ⟨i, h1⟩)
          then markOrphanDeleted now
              ((microsubUpsertStage domainOf siteOf src ms db.blogs now nextId).1.get ⟨i, h1⟩)
          else (microsubUpsertStage domainOf siteOf src ms db.blogs now nextId).1.get ⟨i, h1⟩ := by
      rw [List.get_of_eq hblogs]
      simp [orphanSweep]
    constructor
    · intro horph
      rw [hget, if_pos ((orphanMatches_iff _ _ _).mpr horph)]
      exact ⟨rfl, rfl⟩
    · intro horph
      rw [hget, if_neg (fun hmatch => horph ((orphanMatches_iff _ _ _).mp hmatch))]

/-- A stale mirror blog whose foreign feed is gone. -/
def staleMirrorBlog : Blog :=
  { id := 21
    sourceId := some 1
    title := "Mirrored"
    description := none
    feedUrl := "https://m.example/feed"
    siteUrl := "https://m.example"
    feedType := "rss"
    category := "C"
    tags := []
    photo := none
    author := none
    status := "active"
    lastFetchAt := none
    lastError := none
    itemCount := 0
    pinned := false
    hidden := false
    notes := none
    source := some "microsub"
    microsubFeedId := some "f0"
    microsubChannelId := some "1"
    microsubChannelName := some "C"
    skipItemFetch := true
    createdAt := 0
    updatedAt := 0
    deletedAt := none }

/-- A concrete microsub source. -/
def sampleMicrosubSource : Source :=
  { id := 1
    kind := "microsub"
    name := "Microsub"
    url := none
    opmlContent := none
    channelFilter := none
    categoryPrefixVal := ""
    feedlandInstance := none
    feedlandUsername := none
    feedlandCategory := none
    enabled := true
    syncInterval := 60
    lastSyncAt := none
    lastSyncError := none
    createdAt := 0
    updatedAt := 0 }

/-- C5 counterexample: with one channel present but zero foreign feeds
(the current foreign feed set is empty), the sync leaves a stale mirror
blog of this source untouched instead of soft-deleting it — the blog's
feed id is not in the (empty) current set, yet its status stays
`active`. -/
theorem microsub_empty_feed_set_counterexample :
    currentMicrosubFeedIds sampleMicrosubSource
        { available := true, channels := [⟨1, "home", "C"⟩], feeds := [] } = [] ∧
    orphanProp sampleMicrosubSource.id [] staleMirrorBlog ∧
    (syncMicrosubSource (fun u => u) (fun u => u)
        { sources := [sampleMicrosubSource], blogs := [staleMirrorBlog],
          items := [], meta := none }
        sampleMicrosubSource
        { available := true, channels := [⟨1, "home", "C"⟩], feeds := [] }
        100 50).1.blogs
      = [staleMirrorBlog] := by
  refine ⟨rfl, ?_, by decide⟩
  refine ⟨rfl, rfl, ?_, by decide⟩
  intro f hf
  cases hf

theorem microsub_orphan_detection_witness :
    ((MicrosubStore.mk true [⟨1, "home", "C"⟩]
        [⟨"f1", 1, "https://n.example/feed", "N", "active", none, none⟩]).available = true) ∧
    ((microsubChannels sampleMicrosubSource
        (MicrosubStore.mk true [⟨1, "home", "C"⟩]
          [⟨"f1", 1, "https://n.example/feed", "N", "active", none, none⟩])).isEmpty = false) ∧
    (currentMicrosubFeedIds sampleMicrosubSource
        (MicrosubStore.mk true [⟨1, "home", "C"⟩]
          [⟨"f1", 1, "https://n.example/feed", "N", "active", none, none⟩]) ≠ []) ∧
    (syncMicrosubSource (fun u => u) (fun u => u)
        { sources := [sampleMicrosubSource], blogs := [staleMirrorBlog],
          items := [], meta := none }
        sampleMicrosubSource
        (MicrosubStore.mk true [⟨1, "home", "C"⟩]
          [⟨"f1", 1, "https://n.example/feed", "N", "active", none, none⟩])
        100 50).1.blogs
      = orphanSweep sampleMicrosubSource.id
          (currentMicrosubFeedIds sampleMicrosubSource
            (MicrosubStore.mk true [⟨1, "home", "C"⟩]
              [⟨"f1", 1, "https://n.example/feed", "N", "active", none, none⟩])) 100
          (microsubUpsertStage (fun u => u) (fun u => u) sampleMicrosubSource
            (MicrosubStore.mk true [⟨1, "home", "C"⟩]
              [⟨"f1", 1, "https://n.example/feed", "N", "active", none, none⟩])
            [staleMirrorBlog] 100 50).1 :=
  ⟨rfl, by decide, by decide,
   (microsub_orphan_detection (fun u => u) (fun u => u)
      { sources := [sampleMicrosubSource], blogs := [staleMirrorBlog],
        items := [], meta := none }
      sampleMicrosubSource
      (MicrosubStore.mk true [⟨1, "home", "C"⟩]
        [⟨"f1", 1, "https://n.example/feed", "N", "active", none, none⟩])
      100 50 rfl (by decide) (by decide)).1⟩

/-! ## Uniqueness per feed URL (claim C7) -/

/-- At most one non-deleted blog per feed URL. -/
def atMostOnePerFeed (store : List Blog) : Prop :=
  ∀ u : String,
    (store.filter fun b => b.feedUrl == u && !(b.status == "deleted")).length ≤ 1

/-- An active blog owned by source 1. -/
def activeBlogSourceOne : Blog :=
  { sampleDeletedBlog with
    id := 31
    sourceId := some 1
    title := "Shared"
    feedUrl := "https://c.example/feed"
    siteUrl := "https://c.example"
    status := "active"
    hidden := false
    deletedAt := none }

/-- The same feed URL offered by a different source. -/
def candidateFromSourceTwo : BlogData :=
  { sampleCandidate with
    title := "Shared again"
    feedUrl := "https://c.example/feed"
    siteUrl := "https://c.example"
    sourceId := some 2
    source := none }

/-- C7 counterexample: starting from a store holding a single active blog
for a feed URL under source 1, an upsert of the same feed URL tagged with
source 2 misses the `{feedUrl, sourceId}` filter and inserts a second
non-deleted blog with that feed URL — the per-feed-URL uniqueness
invariant is not preserved when two different sources supply the same
feed URL. -/
theorem upsertBlog_unique_per_feed_counterexample :
    atMostOnePerFeed [activeBlogSourceOne] ∧
    (upsertBlog [activeBlogSourceOne] candidateFromSourceTwo 100 32).2.upserted = true ∧
    ¬ atMostOnePerFeed (upsertBlog [activeBlogSourceOne] candidateFromSourceTwo 100 32).1 := by
  refine ⟨?_, by decide, ?_⟩
  · intro u
    by_cases h : (activeBlogSourceOne.feedUrl == u &&
        !(activeBlogSourceOne.status == "deleted")) = true
    · simp [List.filter, h]
    · simp [List.filter, h]
  · intro hall
    have := hall "https://c.example/feed"
    revert this
    decide

theorem updateFirst_filter_length_le (p q : α → Bool) (f : α → α) :
    ∀ l : List α, (∀ x ∈ l, p x = true → q (f x) = true → q x = true) →
      ((updateFirst p f l).filter q).length ≤ (l.filter q).length := by
  intro l
  induction l with
  | nil => intro _; exact Nat.le_refl _
  | cons x xs ih =>
      intro h
      by_cases hp : p x
      · simp only [updateFirst, hp, if_pos]
        by_cases hq : q (f x)
        · have hqx := h x (by simp) hp hq
          simp [List.filter_cons, hq, hqx]
        · have : ((f x :: xs).filter q).length = (xs.filter q).length := by
            simp [List.filter_cons, hq]
          rw [this]
          by_cases hqx : q x
          · simp only [List.filter_cons, hqx, if_pos, List.length_cons]
            exact Nat.le_succ_of_le (Nat.le_refl _)
          · simp [List.filter_cons, hqx]
      · simp only [updateFirst, hp, if_neg, Bool.false_eq_true, not_false_iff]
        have ihx := ih (fun y hy => h y (List.mem_cons_of_mem _ hy))
        by_cases hqx : q x
        · simp only [List.filter_cons, hqx, if_pos, List.length_cons]
          exact Nat.succ_le_succ ihx
        · simp only [List.filter_cons, hqx, Bool.false_eq_true, if_neg, not_false_iff]
          exact ihx

theorem applyBlogSet_feedUrl (d : BlogData) (now : Int) (b : Blog) :
    (applyBlogSet d now b).feedUrl = b.feedUrl := rfl

/-- C7 (amended): `upsertBlog` preserves the at-most-one-non-deleted-blog-
per-feed-URL invariant for every candidate that carries no source id (the
manual and webhook paths); when the candidate carries a source id the
match key is `(feedUrl, sourceId)` and a second source supplying an
existing feed URL inserts a second blog, so the invariant only holds per
feed URL within a single source. -/
theorem upsertBlog_unique_per_feed_no_source
    (store : List Blog) (d : BlogData) (now : Int) (newId : Nat)
    (hsrc : d.sourceId = none)
    (hstore : atMostOnePerFeed store) :
    atMostOnePerFeed (upsertBlog store d now newId).1 := by
  unfold upsertBlog
  by_cases hdel : store.any (fun b => b.feedUrl == d.feedUrl && b.status == "deleted") = true
  · simp only [hdel, if_pos]
    exact hstore
  · have hnodel : ∀ b ∈ store, b.feedUrl = d.feedUrl → b.status ≠ "deleted" := by
      intro b hb hurl hstat
      exact hdel (List.any_eq_true.mpr ⟨b, hb, by simp [hurl, hstat]⟩)
    simp only [hdel, Bool.false_eq_true, if_neg, not_false_iff]
    cases hfind : store.find? (blogMatchesFilter d) with
    | some b =>
        simp only
        intro u
        refine Nat.le_trans (updateFirst_filter_length_le _ _ _ store ?_) (hstore u)
        intro x hx hpx hqfx
        have hxurl : x.feedUrl = d.feedUrl := by
          have := (Bool.and_eq_true _ _).mp hpx
          simpa using this.1
        have hq1 : (x.feedUrl == u) = true := by
          have := (Bool.and_eq_true _ _).mp hqfx
          rw [applyBlogSet_feedUrl] at this
          exact this.1
        have hq2 : (!(x.status == "deleted")) = true := by
          have := hnodel x hx hxurl
          simp [this]
        rw [Bool.and_eq_true]
        exact ⟨hq1, hq2⟩
    | none =>
        simp only
        intro u
        rw [List.filter_append]
        by_cases hu : u = d.feedUrl
        · have hempty : store.filter (fun b => b.feedUrl == u && !(b.status == "deleted")) = [] := by
            rw [List.filter_eq_nil_iff]
            intro b hb hq
            have hurl : b.feedUrl = u := by
              have := (Bool.and_eq_true _ _).mp hq
              simpa using this.1
            have : blogMatchesFilter d b = true := by
              unfold blogMatchesFilter
              rw [hsrc]
              simp [hurl, hu]
            have hnone := List.find?_eq_none.mp hfind b hb
            exact hnone this
          rw [hempty]
          simp only [List.nil_append]
          cases hq : (fun b => b.feedUrl == u && !(b.status == "deleted")) (insertBlogDoc d now newId)
          · simp [List.filter_cons, hq]
          · simp [List.filter_cons, hq]
        · have hins : ((insertBlogDoc d now newId).feedUrl == u) = false := by
            have heq : (insertBlogDoc d now newId).feedUrl = d.feedUrl := rfl
            rw [heq]
            simp only [beq_eq_false_iff_ne, ne_eq]
            intro hcontra
            exact hu hcontra.symm
          have : [insertBlogDoc d now newId].filter
              (fun b => b.feedUrl == u && !(b.status == "deleted")) = [] := by
            simp [List.filter_cons, hins]
          rw [this, List.append_nil]
          exact hstore u

theorem upsertBlog_unique_per_feed_no_source_witness :
    sampleCandidate.sourceId = some 3 ∧
    ({ sampleCandidate with sourceId := none } : BlogData).sourceId = none ∧
    atMostOnePerFeed [activeBlogSourceOne] ∧
    atMostOnePerFeed
      (upsertBlog [activeBlogSourceOne] { sampleCandidate with sourceId := none } 100 33).1 := by
  have hbase : atMostOnePerFeed [activeBlogSourceOne] := by
    intro u
    by_cases h : (activeBlogSourceOne.feedUrl == u &&
        !(activeBlogSourceOne.status == "deleted")) = true
    · simp [List.filter, h]
    · simp [List.filter, h]
  exact ⟨rfl, rfl, hbase,
    upsertBlog_unique_per_feed_no_source [activeBlogSourceOne]
      { sampleCandidate with sourceId := none } 100 33 rfl hbase⟩

/-! ## Per-blog item sync (`src/lib/sync/feed.js`) and blog status
(`src/lib/storage/blogs.js` lines 645-669) -/

/-- The status record passed to `updateBlogStatus`; `none` stands for a
field the caller did not set. -/
structure BlogStatusUpdate where
  success : Bool
  itemCount : Option Nat
  title : Option String
  photo : Option String
  siteUrl : Option String
  error : Option String
  deriving Repr, DecidableEq

/-- JavaScript truthiness of an optional string (absent and empty are
falsy). -/
def optTruthy (o : Option String) : Bool :=
  match o with
  | some s => !(s == "")
  | none => false

/-- `updateBlogStatus` applied to one blog document: on success the blog
becomes `active` with a fresh fetch time, cleared error, and the provided
item count / truthy title / photo / site URL; on failure it becomes
`error` with the message recorded. -/
def applyBlogStatus (st : BlogStatusUpdate) (now : Int) (b : Blog) : Blog :=
  if st.success then
    { b with
      updatedAt := now
      status := "active"
      lastFetchAt := some now
      lastError := none
      itemCount := st.itemCount.getD b.itemCount
      title := match st.title with
        | some t => if t ≠ "" then t else b.title
        | none => b.title
      photo := match st.photo with
        | some p => if p ≠ "" then some p else b.photo
        | none => b.photo
      siteUrl := match st.siteUrl with
        | some s2 => if s2 ≠ "" then s2 else b.siteUrl
        | none => b.siteUrl }
  else
    { b with updatedAt := now, status := "error", lastError := st.error }

/-- `updateBlogStatus` on the blog collection (`updateOne` by `_id`). -/
def updateBlogStatus (blogs : List Blog) (id : Nat) (st : BlogStatusUpdate)
    (now : Int) : List Blog :=
  updateFirst (fun b => b.id == id) (applyBlogStatus st now) blogs

/-- A normalized feed as returned by `fetchAndParseFeed`. -/
structure Feed where
  title : Option String
  description : Option String
  siteUrl : Option String
  photo : Option String
  author : Option String
  items : List FeedItem
  deriving Repr, DecidableEq

/-- Result shape of `syncBlogItems`. -/
structure BlogSyncResult where
  success : Bool
  added : Nat
  total : Nat
  error : Option String
  deriving Repr, DecidableEq

/-- `syncBlogItems` from `src/lib/sync/feed.js` lines 293-343: fetch the
blog's feed (the network outcome is the `fetchFeed` environment), upsert
every normalized item, and record the outcome on the blog's own record;
a fetch or parse failure is caught and recorded as an `error` status with
the message, never thrown to the caller. -/
def syncBlogItems (fetchFeed : String → Except String Feed) (db : DB)
    (blog : Blog) (now : Int) : DB × BlogSyncResult :=
  match fetchFeed blog.feedUrl with
  | .error e =>
      let blogs2 := updateBlogStatus db.blogs blog.id ⟨false, none, none, none, none, some e⟩ now
      ({ db with blogs := blogs2 }, ⟨false, 0, 0, some e⟩)
  | .ok feed =>
      let run := upsertItemsLoop db.items blog.id feed.items now
      let upd : BlogStatusUpdate :=
        { success := true
          itemCount := some feed.items.length
          title := if blog.title == blog.feedUrl && optTruthy feed.title then feed.title else none
          photo := if !(optTruthy blog.photo) && optTruthy feed.photo then feed.photo else none
          siteUrl := if blog.siteUrl == "" && optTruthy feed.siteUrl then feed.siteUrl else none
          error := none }
      let blogs2 := updateBlogStatus db.blogs blog.id upd now
      ({ db with items := run.1, blogs := blogs2 },
       ⟨true, run.2, feed.items.length, none⟩)

/-! ## Scheduler (`src/lib/sync/scheduler.js`) -/

/-- The blog-stage skip condition
(`blog.source === "microsub" || blog.skipItemFetch`). -/
def blogSkip (b : Blog) : Bool :=
  b.source == some "microsub" || b.skipItemFetch

/-- Stable insertion into a sorted list. -/
def orderedInsertB (le : α → α → Bool) (x : α) : List α → List α
  | [] => [x]
  | y :: ys => if le x y then x :: y :: ys else y :: orderedInsertB le x ys

/-- A stable sort modelling the store's index sort. -/
def insertionSortB (le : α → α → Bool) : List α → List α
  | [] => []
  | x :: xs => orderedInsertB le x (insertionSortB le xs)

/-- Lexicographic order on character lists (the store's string index
order). -/
def charListLT : List Char → List Char → Bool
  | _, [] => false
  | [], _ :: _ => true
  | a :: as, b :: bs =>
      if a.toNat < b.toNat then true
      else if b.toNat < a.toNat then false
      else charListLT as bs

/-- Lexicographic order on strings. -/
def strLT (a b : String) : Bool := charListLT a.data b.data

/-- The `{pinned: -1, title: 1}` sort order of `getBlogs`. -/
def blogSortLE (a b : Blog) : Bool :=
  if a.pinned == b.pinned then !(strLT b.title a.title) else a.pinned

/-- `getBlogs(application, {includeHidden: false, limit: 1000})`: the
non-deleted, non-hidden blogs, sorted, first 1000. -/
def getBlogsForSync (db : DB) : List Blog :=
  (insertionSortB blogSortLE
    (db.blogs.filter fun b => !(b.status == "deleted") && !b.hidden)).take 1000

/-- The `{name: 1}` sort order of `getSources`. -/
def sourceNameLE (a b : Source) : Bool := !(strLT b.name a.name)

/-- `getSources`: every source, sorted by name. -/
def getSources (db : DB) : List Source :=
  insertionSortB sourceNameLE db.sources

/-- The source kinds the scheduler recognizes. -/
def schedulerKinds : List String :=
  ["opml_url", "opml_file", "json_feed", "microsub", "feedland"]

/-- The enabled sources of recognized kinds. -/
def enabledSources (db : DB) : List Source :=
  (getSources db).filter fun s => s.enabled && schedulerKinds.contains s.kind

/-- The per-source sync stage (`scheduler.js` lines 52-68).  One step is
the dispatch to `syncMicrosubSource` / `syncFeedlandSource` /
`syncOpmlSource`, abstracted as the `step` environment: it transforms the
store and either returns the adapter's `success` flag or throws.  A thrown
step is caught and tallied as a failure; the loop always continues. -/
def sourcesLoop (step : Source → DB → DB × Except String Bool) :
    List Source → DB → DB × Nat × Nat
  | [], db => (db, 0, 0)
  | s :: rest, db =>
      let step1 := step s db
      let restRun := sourcesLoop step rest step1.1
      match step1.2 with
      | .ok success =>
          (restRun.1,
           (if success then 1 else 0) + restRun.2.1,
           (if success then 0 else 1) + restRun.2.2)
      | .error _ => (restRun.1, restRun.2.1, 1 + restRun.2.2)

/-- The per-blog sync stage (`scheduler.js` lines 78-101): skip mirror
blogs, otherwise sync the blog's items, tallying success / failed /
skipped / new items; a per-blog failure never aborts the loop. -/
def blogsLoop (fetchFeed : String → Except String Feed) (now : Int) :
    List Blog → DB → DB × Nat × Nat × Nat × Nat
  | [], db => (db, 0, 0, 0, 0)
  | b :: rest, db =>
      if blogSkip b then
        let r := blogsLoop fetchFeed now rest db
        (r.1, r.2.1, r.2.2.1, r.2.2.2.1 + 1, r.2.2.2.2)
      else
        let s1 := syncBlogItems fetchFeed db b now
        let r := blogsLoop fetchFeed now rest s1.1
        if s1.2.success then
          (r.1, r.2.1 + 1, r.2.2.1, r.2.2.2.1, r.2.2.2.2 + s1.2.added)
        else
          (r.1, r.2.1, r.2.2.1 + 1, r.2.2.2.1, r.2.2.2.2)

/-- The scheduler state: the store plus the module-level single-flight
flag (`let isRunning = false`). -/
structure SchedState where
  db : DB
  isRunning : Bool
  deriving Repr, DecidableEq

/-- The three return shapes of `runFullSync`: the single-flight rejection
`{skipped: true}`, the completed stats, or the caught internal failure
`{success: false, error}`. -/
inductive RunResult where
  | skipped
  | completed (stats : RunStats)
  | failed (error : String)
  deriving Repr, DecidableEq

/-- The options record of `runFullSync`. -/
structure RunOptions where
  maxItemsPerBlog : Nat
  fetchTimeout : Nat
  maxItemAge : Int
  deriving Repr, DecidableEq

/-- The environment of one run: the frozen clock, the per-feed fetch
outcome, the per-source adapter dispatch, and whether the statistics
write resolves or rejects (the one run-level write whose failure the
outer catch converts into `{success: false, error}`). -/
structure SyncEnv where
  now : Int
  fetchFeed : String → Except String Feed
  syncSource : Source → DB → DB × Except String Bool
  metaWrite : RunStats → Except String Unit

/-- The `blogrollMeta` upsert of the `syncStats` document. -/
def writeMeta (stats : RunStats) (db : DB) : DB := { db with meta := some stats }

/-- Stage 1 of a run: the retention sweep (`deleteOldItems` first). -/
def schedulerRetention (now maxItemAge : Int) (db : DB) : DB × Nat :=
  let swept := deleteOldItems db.items now maxItemAge
  ({ db with items := swept.1 }, swept.2)

/-- The store after stage 2 (sources synced), together with the tallies
and the enabled-source count. -/
def schedulerSourceStage (step : Source → DB → DB × Except String Bool)
    (now maxItemAge : Int) (db : DB) : DB × Nat × Nat × Nat × Nat :=
  let sweep := schedulerRetention now maxItemAge db
  let enabled := enabledSources sweep.1
  let srcRun := sourcesLoop step enabled sweep.1
  (srcRun.1, enabled.length, srcRun.2.1, srcRun.2.2, sweep.2)

/-- The blog list stage 3 iterates. -/
def scheduledBlogs (step : Source → DB → DB × Except String Bool)
    (now maxItemAge : Int) (db : DB) : List Blog :=
  getBlogsForSync (schedulerSourceStage step now maxItemAge db).1

/-- The try-block of `runFullSync`: retention sweep, source sync, blog
sync, statistics assembly (`duration` is 0 under the frozen clock). -/
def runBody (env : SyncEnv) (opts : RunOptions) (db : DB) : RunStats × DB :=
  ({ lastFullSync := env.now
     duration := 0
     sourcesTotal := (schedulerSourceStage env.syncSource env.now opts.maxItemAge db).2.1
     sourcesSuccess := (schedulerSourceStage env.syncSource env.now opts.maxItemAge db).2.2.1
     sourcesFailed := (schedulerSourceStage env.syncSource env.now opts.maxItemAge db).2.2.2.1
     blogsTotal := (scheduledBlogs env.syncSource env.now opts.maxItemAge db).length
     blogsSuccess := (blogsLoop env.fetchFeed env.now
        (scheduledBlogs env.syncSource env.now opts.maxItemAge db)
        (schedulerSourceStage env.syncSource env.now opts.maxItemAge db).1).2.1
     blogsFailed := (blogsLoop env.fetchFeed env.now
        (scheduledBlogs env.syncSource env.now opts.maxItemAge db)
        (schedulerSourceStage env.syncSource env.now opts.maxItemAge db).1).2.2.1
     itemsAdded := (blogsLoop env.fetchFeed env.now
        (scheduledBlogs env.syncSource env.now opts.maxItemAge db)
        (schedulerSourceStage env.syncSource env.now opts.maxItemAge db).1).2.2.2.2
     itemsDeleted := (schedulerSourceStage env.syncSource env.now opts.maxItemAge db).2.2.2.2 },
   (blogsLoop env.fetchFeed env.now
      (scheduledBlogs env.syncSource env.now opts.maxItemAge db)
      (schedulerSourceStage env.syncSource env.now opts.maxItemAge db).1).1)

/-- `runFullSync` from `src/lib/sync/scheduler.js` lines 23-157: reject
immediately when a run is in flight; otherwise set the flag, execute the
body, persist the statistics (whose write may reject, in which case the
outer catch reports `{success: false, error}`), and clear the flag in the
`finally` on both paths. -/
def runFullSync (env : SyncEnv) (st : SchedState) (opts : RunOptions) :
    RunResult × SchedState :=
  if st.isRunning then
    (.skipped, st)
  else
    match env.metaWrite (runBody env opts st.db).1 with
    | .ok _ =>
        (.completed (runBody env opts st.db).1,
         { db := writeMeta (runBody env opts st.db).1 (runBody env opts st.db).2,
           isRunning := false })
    | .error e =>
        (.failed e, { db := (runBody env opts st.db).2, isRunning := false })

/-- C2: a `runFullSync` invocation that finds the run-in-progress flag set
returns `{skipped: true}` immediately and leaves the whole scheduler state
— every collection of the store and the flag itself — untouched; nothing
is queued, because the call returns before any stage executes. -/
theorem runFullSync_single_flight (env : SyncEnv) (st : SchedState)
    (opts : RunOptions) (h : st.isRunning = true) :
    runFullSync env st opts = (.skipped, st) := by
  simp [runFullSync, h]

/-- An empty store. -/
def emptyDB : DB := { sources := [], blogs := [], items := [], meta := none }

/-- An empty normalized feed. -/
def emptyFeed : Feed :=
  { title := none, description := none, siteUrl := none, photo := none,
    author := none, items := [] }

/-- A benign environment for witnesses. -/
def benignEnv : SyncEnv :=
  { now := 0
    fetchFeed := fun _ => .ok emptyFeed
    syncSource := fun _ db => (db, .ok true)
    metaWrite := fun _ => .ok () }

/-- Default options. -/
def defaultOptions : RunOptions :=
  { maxItemsPerBlog := 50, fetchTimeout := 15000, maxItemAge := 7 }

theorem runFullSync_single_flight_witness :
    (SchedState.mk emptyDB true).isRunning = true ∧
    runFullSync benignEnv (SchedState.mk emptyDB true) defaultOptions
      = (.skipped, SchedState.mk emptyDB true) :=
  ⟨rfl, runFullSync_single_flight benignEnv (SchedState.mk emptyDB true)
    defaultOptions rfl⟩

/-- C10: an invocation that actually starts (the flag was clear) always
returns with the flag cleared again — on the completed path and on the
statistics-write-failure path that reports `{success: false, error}` alike
— so no later invocation can be rejected with `{skipped: true}` on account
of a run that has already returned. -/
theorem runFullSync_clears_flag (env : SyncEnv) (st : SchedState)
    (opts : RunOptions) (h : st.isRunning = false) :
    (runFullSync env st opts).2.isRunning = false ∧
    (∀ env2 opts2,
      (runFullSync env2 (runFullSync env st opts).2 opts2).1 ≠ RunResult.skipped) := by
  have hflag : ∀ (env2 : SyncEnv) (st2 : SchedState) (opts2 : RunOptions),
      st2.isRunning = false → (runFullSync env2 st2 opts2).2.isRunning = false := by
    intro env2 st2 opts2 h2
    unfold runFullSync
    rw [if_neg (by simp [h2])]
    cases hmw : env2.metaWrite (runBody env2 opts2 st2.db).1 with
    | ok u => simp
    | error e => simp
  have hnoskip : ∀ (env2 : SyncEnv) (st2 : SchedState) (opts2 : RunOptions),
      st2.isRunning = false → (runFullSync env2 st2 opts2).1 ≠ RunResult.skipped := by
    intro env2 st2 opts2 h2
    unfold runFullSync
    rw [if_neg (by simp [h2])]
    cases hmw : env2.metaWrite (runBody env2 opts2 st2.db).1 with
    | ok u => simp
    | error e => simp
  exact ⟨hflag env st opts h,
    fun env2 opts2 => hnoskip env2 _ opts2 (hflag env st opts h)⟩

/-- An environment whose statistics write rejects, exercising the
internal-failure path. -/
def failingMetaEnv : SyncEnv :=
  { benignEnv with metaWrite := fun _ => .error "stats write failed" }

theorem runFullSync_clears_flag_witness :
    (SchedState.mk emptyDB false).isRunning = false ∧
    (runFullSync failingMetaEnv (SchedState.mk emptyDB false) defaultOptions).2.isRunning
      = false ∧
    (runFullSync benignEnv
        (runFullSync failingMetaEnv (SchedState.mk emptyDB false) defaultOptions).2
        defaultOptions).1 ≠ RunResult.skipped :=
  ⟨rfl,
   (runFullSync_clears_flag failingMetaEnv (SchedState.mk emptyDB false)
      defaultOptions rfl).1,
   (runFullSync_clears_flag failingMetaEnv (SchedState.mk emptyDB false)
      defaultOptions rfl).2 benignEnv defaultOptions⟩

/-! ## Failure isolation of the blog stage (claim C3)

The two runs compared by the claim share the clock, the source adapters
and the statistics write, and differ only in one feed's fetch outcome.
The lemmas below show that a per-blog failure is confined to that blog's
own record and items. -/

/-- The items belonging to one blog. -/
def itemsFor (bid : Nat) (items : List Item) : List Item :=
  items.filter fun i => i.blogId == bid

theorem find?_filter_of_imp (p q : α → Bool)
    (himp : ∀ x, p x = true → q x = true) :
    ∀ l : List α, (l.filter q).find? p = l.find? p := by
  intro l
  induction l with
  | nil => rfl
  | cons x xs ih =>
      by_cases hq : q x
      · by_cases hp : p x
        · simp [List.filter_cons, hq, List.find?_cons, hp]
        · simp [List.filter_cons, hq, List.find?_cons, hp, ih]
      · have hp : p x = false := by
          cases hpc : p x
          · rfl
          · exact absurd (himp x hpc) (by simp [hq])
        simp [List.filter_cons, hq, List.find?_cons, hp, ih]

theorem filter_updateFirst_comm (p q : α → Bool) (f : α → α)
    (hpq : ∀ x, p x = true → q x = true) (hf : ∀ x, q (f x) = q x) :
    ∀ l : List α, (updateFirst p f l).filter q = updateFirst p f (l.filter q) := by
  intro l
  induction l with
  | nil => rfl
  | cons x xs ih =>
      by_cases hp : p x
      · have hq : q x = true := hpq x hp
        have hqf : q (f x) = true := by rw [hf]; exact hq
        simp [updateFirst, hp, List.filter_cons, hq, hqf]
      · by_cases hq : q x
        · simp [updateFirst, hp, List.filter_cons, hq, ih]
        · simp [updateFirst, hp, List.filter_cons, hq, ih]

theorem filter_updateFirst_of_neg (p q : α → Bool) (f : α → α)
    (hq : ∀ x, p x = true → q x = false) (hqf : ∀ x, p x = true → q (f x) = false) :
    ∀ l : List α, (updateFirst p f l).filter q = l.filter q := by
  intro l
  induction l with
  | nil => rfl
  | cons x xs ih =>
      by_cases hp : p x
      · simp [updateFirst, hp, List.filter_cons, hq x hp, hqf x hp]
      · by_cases hqx : q x
        · simp [updateFirst, hp, List.filter_cons, hqx, ih]
        · simp [updateFirst, hp, List.filter_cons, hqx, ih]

theorem itemKeyMatches_blogId (bid : Nat) (uid : String) (i : Item)
    (h : itemKeyMatches bid uid i = true) : i.blogId = bid :=
  ((itemKeyMatches_iff bid uid i).mp h).1

/-- An upsert for one blog leaves every other blog's items untouched. -/
theorem upsertItem_itemsFor_frame (s : List Item) (bid : Nat) (d : FeedItem)
    (now : Int) (bid2 : Nat) (h : bid2 ≠ bid) :
    itemsFor bid2 (upsertItem s bid d now).1 = itemsFor bid2 s := by
  unfold upsertItem
  cases hfind : s.find? (itemKeyMatches bid d.uid) with
  | some i =>
      simp only
      unfold itemsFor
      apply filter_updateFirst_of_neg
      · intro x hx
        have := itemKeyMatches_blogId bid d.uid x hx
        simp [this, Ne.symm h]
      · intro x hx
        have hxk := itemKeyMatches_blogId bid d.uid x hx
        have hfk : (applyItemSet d now x).blogId = x.blogId := rfl
        simp [hfk, hxk, Ne.symm h]
  | none =>
      simp only
      unfold itemsFor
      rw [List.filter_append]
      have : (insertItemDoc bid d now).blogId = bid := rfl
      simp [List.filter_cons, this, Ne.symm h]

/-- Two stores that agree on one blog's items get the same upsert result
and still agree on that blog's items afterwards. -/
theorem upsertItem_congr_bucket (sA sB : List Item) (bid : Nat) (d : FeedItem)
    (now : Int) (h : itemsFor bid sA = itemsFor bid sB) :
    (upsertItem sA bid d now).2 = (upsertItem sB bid d now).2 ∧
    itemsFor bid (upsertItem sA bid d now).1
      = itemsFor bid (upsertItem sB bid d now).1 := by
  have himp : ∀ x, itemKeyMatches bid d.uid x = true → (x.blogId == bid) = true := by
    intro x hx
    simp [itemKeyMatches_blogId bid d.uid x hx]
  have hfind : sA.find? (itemKeyMatches bid d.uid) = sB.find? (itemKeyMatches bid d.uid) := by
    rw [← find?_filter_of_imp _ _ himp sA, ← find?_filter_of_imp _ _ himp sB]
    unfold itemsFor at h
    rw [h]
  unfold upsertItem
  rw [hfind]
  cases hf : sB.find? (itemKeyMatches bid d.uid) with
  | some i =>
      refine ⟨rfl, ?_⟩
      unfold itemsFor
      dsimp only
      rw [filter_updateFirst_comm (itemKeyMatches bid d.uid) (fun i => i.blogId == bid)
          (applyItemSet d now) himp (fun x => rfl) sA,
        filter_updateFirst_comm (itemKeyMatches bid d.uid) (fun i => i.blogId == bid)
          (applyItemSet d now) himp (fun x => rfl) sB]
      unfold itemsFor at h
      rw [h]
  | none =>
      refine ⟨rfl, ?_⟩
      unfold itemsFor
      dsimp only
      rw [List.filter_append, List.filter_append]
      unfold itemsFor at h
      rw [h]

/-- The loop version of `upsertItem_itemsFor_frame`. -/
theorem upsertItemsLoop_itemsFor_frame (bid bid2 : Nat) (h : bid2 ≠ bid) :
    ∀ (l : List FeedItem) (s : List Item) (now : Int),
      itemsFor bid2 (upsertItemsLoop s bid l now).1 = itemsFor bid2 s := by
  intro l
  induction l with
  | nil => intro s now; rfl
  | cons d rest ih =>
      intro s now
      show itemsFor bid2 (upsertItemsLoop (upsertItem s bid d now).1 bid rest now).1 = _
      rw [ih, upsertItem_itemsFor_frame s bid d now bid2 h]

/-- The loop version of `upsertItem_congr_bucket`. -/
theorem upsertItemsLoop_congr_bucket (bid : Nat) :
    ∀ (l : List FeedItem) (sA sB : List Item) (now : Int),
      itemsFor bid sA = itemsFor bid sB →
      (upsertItemsLoop sA bid l now).2 = (upsertItemsLoop sB bid l now).2 ∧
      itemsFor bid (upsertItemsLoop sA bid l now).1
        = itemsFor bid (upsertItemsLoop sB bid l now).1 := by
  intro l
  induction l with
  | nil => intro sA sB now h; exact ⟨rfl, h⟩
  | cons d rest ih =>
      intro sA sB now h
      obtain ⟨hres, hbucket⟩ := upsertItem_congr_bucket sA sB bid d now h
      obtain ⟨ihres, ihbucket⟩ := ih (upsertItem sA bid d now).1 (upsertItem sB bid d now).1 now hbucket
      constructor
      · show (if (upsertItem sA bid d now).2.upserted then 1 else 0) +
            (upsertItemsLoop (upsertItem sA bid d now).1 bid rest now).2 = _
        rw [hres, ihres]
        rfl
      · exact ihbucket

theorem applyBlogStatus_id (st : BlogStatusUpdate) (now : Int) (b : Blog) :
    (applyBlogStatus st now b).id = b.id := by
  unfold applyBlogStatus
  split <;> rfl

theorem applyBlogStatus_error_status (e : Option String) (now : Int) (b : Blog) :
    (applyBlogStatus ⟨false, none, none, none, none, e⟩ now b).status = "error" ∧
    (applyBlogStatus ⟨false, none, none, none, none, e⟩ now b).lastError = e := by
  unfold applyBlogStatus
  exact ⟨rfl, rfl⟩

theorem updateBlogStatus_map_id (blogs : List Blog) (id : Nat)
    (st : BlogStatusUpdate) (now : Int) :
    (updateBlogStatus blogs id st now).map Blog.id = blogs.map Blog.id :=
  updateFirst_map_key Blog.id _ _ (fun x _ => applyBlogStatus_id st now x) blogs

/-- `updateFirst` on a list decomposed around a non-matching middle
element: the update lands entirely left or entirely right of it. -/
theorem updateFirst_append_mid (p : α → Bool) (f : α → α) (m : α)
    (hm : p m = false) :
    ∀ (xs ys : List α),
      updateFirst p f (xs ++ m :: ys)
        = if xs.any p then updateFirst p f xs ++ m :: ys
          else xs ++ m :: updateFirst p f ys := by
  intro xs ys
  induction xs with
  | nil => simp [updateFirst, hm]
  | cons x xs ih =>
      by_cases hp : p x
      · simp [updateFirst, hp]
      · have hstep : updateFirst p f ((x :: xs) ++ m :: ys)
            = x :: updateFirst p f (xs ++ m :: ys) := by
          rw [List.cons_append]
          simp [updateFirst, hp]
        rw [hstep, ih]
        by_cases ha : xs.any p
        · rw [if_pos ha, if_pos (by simp [List.any_cons, ha])]
          have hx : updateFirst p f (x :: xs) = x :: updateFirst p f xs := by
            simp [updateFirst, hp]
          rw [hx, List.cons_append]
        · rw [if_neg ha, if_neg (by simp [List.any_cons, hp, ha])]
          rw [List.cons_append]

/-- `updateFirst` when the first match is the known middle element. -/
theorem updateFirst_append_first_match (p : α → Bool) (f : α → α) (m : α)
    (hm : p m = true) :
    ∀ (xs ys : List α), (∀ x ∈ xs, p x = false) →
      updateFirst p f (xs ++ m :: ys) = xs ++ f m :: ys := by
  intro xs ys
  induction xs with
  | nil => intro _; simp [updateFirst, hm]
  | cons x xs ih =>
      intro h
      have hx : p x = false := h x (by simp)
      have hstep : updateFirst p f ((x :: xs) ++ m :: ys)
          = x :: updateFirst p f (xs ++ m :: ys) := by
        rw [List.cons_append]
        simp [updateFirst, hx]
      rw [hstep, ih (fun y hy => h y (List.mem_cons_of_mem _ hy)), List.cons_append]

/-- A blog id occurs exactly once: the collection splits around its
record. -/
def KidUnique (kid : Nat) (blogs : List Blog) : Prop :=
  ∃ p1 b0 p2, blogs = p1 ++ b0 :: p2 ∧ b0.id = kid ∧
    (∀ b ∈ p1, b.id ≠ kid) ∧ (∀ b ∈ p2, b.id ≠ kid)

theorem kidUnique_of_nodup (kid : Nat) (blogs : List Blog)
    (hn : (blogs.map Blog.id).Nodup) (hm : kid ∈ blogs.map Blog.id) :
    KidUnique kid blogs := by
  obtain ⟨b0, hb0, hid⟩ := List.mem_map.mp hm
  obtain ⟨p1, p2, rfl⟩ := List.append_of_mem hb0
  refine ⟨p1, b0, p2, rfl, hid, ?_, ?_⟩
  · intro b hb hbid
    rw [List.map_append, List.map_cons] at hn
    have hnotin := (List.nodup_append.mp hn).2.2
    exact hnotin (List.mem_map_of_mem _ hb) (by simp [hbid, hid])
  · intro b hb hbid
    rw [List.map_append, List.map_cons] at hn
    have htail := (List.nodup_append.mp hn).2.1
    rw [List.nodup_cons] at htail
    refine htail.1 ?_
    have : b.id ∈ List.map Blog.id p2 := List.mem_map_of_mem _ hb
    rw [hbid, ← hid] at this
    exact this

/-- The relation between the all-success run's store and the one-failure
run's store once the failing blog has been processed: the two stores agree
on sources, meta, every other blog's record (positionally) and every other
blog's items; the failure run's record for the failing blog carries the
`error` status and message. -/
def Diverged (kid : Nat) (e : String) (dbA dbB : DB) : Prop :=
  dbA.sources = dbB.sources ∧ dbA.meta = dbB.meta ∧
  (∀ bid, bid ≠ kid → itemsFor bid dbA.items = itemsFor bid dbB.items) ∧
  ∃ p1 bA bB p2,
    dbA.blogs = p1 ++ bA :: p2 ∧ dbB.blogs = p1 ++ bB :: p2 ∧
    bA.id = kid ∧ bB.id = kid ∧ bB.status = "error" ∧ bB.lastError = some e ∧
    (∀ b ∈ p1, b.id ≠ kid) ∧ (∀ b ∈ p2, b.id ≠ kid)

theorem forall_id_ne_of_map_eq (kid : Nat) (q p : List Blog)
    (h : q.map Blog.id = p.map Blog.id) (hp : ∀ b ∈ p, b.id ≠ kid) :
    ∀ b ∈ q, b.id ≠ kid := by
  intro b hb hbid
  have hmem : b.id ∈ q.map Blog.id := List.mem_map_of_mem _ hb
  rw [h] at hmem
  obtain ⟨c, hc, hcid⟩ := List.mem_map.mp hmem
  exact hp c hc (by rw [hcid, hbid])

/-- Updating the status of a blog other than the diverged one advances the
two runs' blog collections in lockstep: the update lands in the shared
part. -/
theorem updateBlogStatus_diverged_blogs (kid jid : Nat) (hjk : jid ≠ kid)
    (st : BlogStatusUpdate) (now : Int)
    (p1 : List Blog) (bA bB : Blog) (p2 : List Blog)
    (hA : bA.id = kid) (hB : bB.id = kid) :
    ∃ q1 q2, updateBlogStatus (p1 ++ bA :: p2) jid st now = q1 ++ bA :: q2 ∧
      updateBlogStatus (p1 ++ bB :: p2) jid st now = q1 ++ bB :: q2 ∧
      q1.map Blog.id = p1.map Blog.id ∧ q2.map Blog.id = p2.map Blog.id := by
  have hkj : ¬ (kid = jid) := fun hcon => hjk hcon.symm
  have hmA : (fun b => b.id == jid) bA = false := by simp [hA, hkj]
  have hmB : (fun b => b.id == jid) bB = false := by simp [hB, hkj]
  unfold updateBlogStatus
  rw [updateFirst_append_mid _ _ bA hmA p1 p2,
    updateFirst_append_mid _ _ bB hmB p1 p2]
  by_cases ha : p1.any (fun b => b.id == jid)
  · rw [if_pos ha, if_pos ha]
    exact ⟨updateFirst (fun b => b.id == jid) (applyBlogStatus st now) p1, p2,
      rfl, rfl,
      updateFirst_map_key Blog.id _ _ (fun x _ => applyBlogStatus_id st now x) p1,
      rfl⟩
  · rw [if_neg ha, if_neg ha]
    exact ⟨p1, updateFirst (fun b => b.id == jid) (applyBlogStatus st now) p2,
      rfl, rfl, rfl,
      updateFirst_map_key Blog.id _ _ (fun x _ => applyBlogStatus_id st now x) p2⟩

/-- Processing a blog other than the diverged one yields the same per-blog
result in both runs and preserves the divergence relation. -/
theorem syncBlogItems_diverged_step
    (FA FB : String → Except String Feed) (now : Int) (kid : Nat) (e : String)
    (b : Blog) (hb : b.id ≠ kid) (hfetch : FB b.feedUrl = FA b.feedUrl)
    (dbA dbB : DB) (hrel : Diverged kid e dbA dbB) :
    (syncBlogItems FB dbB b now).2 = (syncBlogItems FA dbA b now).2 ∧
    Diverged kid e (syncBlogItems FA dbA b now).1 (syncBlogItems FB dbB b now).1 := by
  obtain ⟨hsrc, hmeta, hitems, p1, bA, bB, p2, hblA, hblB, hidA, hidB, hstB, herrB,
    hp1, hp2⟩ := hrel
  unfold syncBlogItems
  rw [hfetch]
  cases hf : FA b.feedUrl with
  | error e2 =>
      obtain ⟨q1, q2, hqA, hqB, hq1, hq2⟩ :=
        updateBlogStatus_diverged_blogs kid b.id hb
          ⟨false, none, none, none, none, some e2⟩ now p1 bA bB p2 hidA hidB
      refine ⟨rfl, hsrc, hmeta, hitems, q1, bA, bB, q2, ?_, ?_, hidA, hidB,
        hstB, herrB,
        forall_id_ne_of_map_eq kid q1 p1 hq1 hp1,
        forall_id_ne_of_map_eq kid q2 p2 hq2 hp2⟩
      · show updateBlogStatus dbA.blogs b.id _ now = _
        rw [hblA]
        exact hqA
      · show updateBlogStatus dbB.blogs b.id _ now = _
        rw [hblB]
        exact hqB
  | ok feed =>
      have hcong := upsertItemsLoop_congr_bucket b.id feed.items dbA.items
        dbB.items now (hitems b.id hb)
      obtain ⟨q1, q2, hqA, hqB, hq1, hq2⟩ :=
        updateBlogStatus_diverged_blogs kid b.id hb
          ⟨true, some feed.items.length,
            (if b.title == b.feedUrl && optTruthy feed.title then feed.title else none),
            (if !(optTruthy b.photo) && optTruthy feed.photo then feed.photo else none),
            (if b.siteUrl == "" && optTruthy feed.siteUrl then feed.siteUrl else none),
            none⟩ now p1 bA bB p2 hidA hidB
      constructor
      · show (⟨true, (upsertItemsLoop dbB.items b.id feed.items now).2,
            feed.items.length, none⟩ : BlogSyncResult) = ⟨true, _, _, none⟩
        rw [hcong.1]
      · refine ⟨hsrc, hmeta, ?_, q1, bA, bB, q2, ?_, ?_, hidA, hidB, hstB, herrB,
          forall_id_ne_of_map_eq kid q1 p1 hq1 hp1,
          forall_id_ne_of_map_eq kid q2 p2 hq2 hp2⟩
        · intro bid hbid
          show itemsFor bid (upsertItemsLoop dbA.items b.id feed.items now).1
              = itemsFor bid (upsertItemsLoop dbB.items b.id feed.items now).1
          by_cases hbb : bid = b.id
          · subst hbb
            exact hcong.2
          · rw [upsertItemsLoop_itemsFor_frame b.id bid hbb feed.items dbA.items now,
              upsertItemsLoop_itemsFor_frame b.id bid hbb feed.items dbB.items now]
            exact hitems bid hbid
        · show updateBlogStatus dbA.blogs b.id _ now = _
          rw [hblA]
          exact hqA
        · show updateBlogStatus dbB.blogs b.id _ now = _
          rw [hblB]
          exact hqB

/-- The whole remaining blog stage after the divergence point: identical
per-blog results and tallies, divergence relation preserved. -/
theorem blogsLoop_diverged
    (FA FB : String → Except String Feed) (now : Int) (kid : Nat) (e : String) :
    ∀ (l : List Blog), (∀ b ∈ l, b.id ≠ kid ∧ FB b.feedUrl = FA b.feedUrl) →
      ∀ dbA dbB, Diverged kid e dbA dbB →
        (blogsLoop FB now l dbB).2 = (blogsLoop FA now l dbA).2 ∧
        Diverged kid e (blogsLoop FA now l dbA).1 (blogsLoop FB now l dbB).1 := by
  intro l
  induction l with
  | nil => intro _ dbA dbB hrel; exact ⟨rfl, hrel⟩
  | cons b rest ih =>
      intro h dbA dbB hrel
      have hb := h b (by simp)
      have hrest := fun b2 hb2 => h b2 (List.mem_cons_of_mem _ hb2)
      by_cases hskip : blogSkip b
      · obtain ⟨ihres, ihrel⟩ := ih hrest dbA dbB hrel
        constructor
        · simp only [blogsLoop, hskip, if_pos]
          rw [ihres]
        · simp only [blogsLoop, hskip, if_pos]
          exact ihrel
      · obtain ⟨hres, hrel2⟩ := syncBlogItems_diverged_step FA FB now kid e b
          hb.1 hb.2 dbA dbB hrel
        obtain ⟨ihres, ihrel⟩ := ih hrest (syncBlogItems FA dbA b now).1
          (syncBlogItems FB dbB b now).1 hrel2
        constructor
        · simp only [blogsLoop, hskip, Bool.false_eq_true, if_neg, not_false_iff]
          rw [hres, ihres]
          by_cases hsucc : (syncBlogItems FA dbA b now).2.success
          · simp [hsucc]
          · simp [hsucc]
        · simp only [blogsLoop, hskip, Bool.false_eq_true, if_neg, not_false_iff]
          rw [hres]
          by_cases hsucc : (syncBlogItems FA dbA b now).2.success
          · simp only [hsucc, if_pos]
            exact ihrel
          · simp only [hsucc, Bool.false_eq_true, if_neg, not_false_iff]
            exact ihrel

theorem syncBlogItems_ok_success (F : String → Except String Feed) (db : DB)
    (b : Blog) (now : Int) (f : Feed) (h : F b.feedUrl = .ok f) :
    (syncBlogItems F db b now).2.success = true := by
  unfold syncBlogItems
  rw [h]

/-- A run whose every non-skipped blog fetch succeeds tallies zero
failures and one success per non-skipped blog. -/
theorem blogsLoop_all_ok (F : String → Except String Feed) (now : Int) :
    ∀ (l : List Blog) (db : DB),
      (∀ b ∈ l, blogSkip b = false → ∃ f, F b.feedUrl = .ok f) →
      (blogsLoop F now l db).2.2.1 = 0 ∧
      (blogsLoop F now l db).2.1 = (l.filter fun b => !(blogSkip b)).length := by
  intro l
  induction l with
  | nil => intro db _; exact ⟨rfl, rfl⟩
  | cons b rest ih =>
      intro db h
      have hrest := fun b2 hb2 => h b2 (List.mem_cons_of_mem _ hb2)
      by_cases hskip : blogSkip b
      · obtain ⟨ihf, ihs⟩ := ih db hrest
        constructor
        · simp only [blogsLoop, hskip, if_pos]
          exact ihf
        · simp only [blogsLoop, hskip, if_pos]
          rw [ihs]
          simp [List.filter_cons, hskip]
      · obtain ⟨f, hf⟩ := h b (by simp) (by simp [hskip])
        have hsucc := syncBlogItems_ok_success F db b now f hf
        obtain ⟨ihf, ihs⟩ := ih (syncBlogItems F db b now).1 hrest
        constructor
        · simp only [blogsLoop, hskip, Bool.false_eq_true, if_neg, not_false_iff,
            hsucc, if_pos]
          exact ihf
        · simp only [blogsLoop, hskip, Bool.false_eq_true, if_neg, not_false_iff,
            hsucc, if_pos]
          rw [ihs]
          simp [List.filter_cons, hskip]

theorem syncBlogItems_fetch_eq (FA FB : String → Except String Feed) (db : DB)
    (b : Blog) (now : Int) (h : FB b.feedUrl = FA b.feedUrl) :
    syncBlogItems FB db b now = syncBlogItems FA db b now := by
  unfold syncBlogItems
  rw [h]

/-- Two fetch environments that agree on every processed feed URL produce
identical blog stages. -/
theorem blogsLoop_congr_fetch (FA FB : String → Except String Feed) (now : Int) :
    ∀ (l : List Blog) (db : DB), (∀ b ∈ l, FB b.feedUrl = FA b.feedUrl) →
      blogsLoop FB now l db = blogsLoop FA now l db := by
  intro l
  induction l with
  | nil => intro db _; rfl
  | cons b rest ih =>
      intro db h
      have hrest := fun b2 hb2 => h b2 (List.mem_cons_of_mem _ hb2)
      by_cases hskip : blogSkip b
      · simp only [blogsLoop, hskip, if_pos]
        rw [ih db hrest]
      · simp only [blogsLoop, hskip, Bool.false_eq_true, if_neg, not_false_iff]
        rw [syncBlogItems_fetch_eq FA FB db b now (h b (by simp)), ih _ hrest]

/-- The blog stage over an appended list is the composition of the two
stages with componentwise-summed tallies. -/
theorem blogsLoop_append (F : String → Except String Feed) (now : Int) :
    ∀ (l1 l2 : List Blog) (db : DB),
      blogsLoop F now (l1 ++ l2) db
        = ((blogsLoop F now l2 (blogsLoop F now l1 db).1).1,
           (blogsLoop F now l1 db).2.1 + (blogsLoop F now l2 (blogsLoop F now l1 db).1).2.1,
           (blogsLoop F now l1 db).2.2.1 + (blogsLoop F now l2 (blogsLoop F now l1 db).1).2.2.1,
           (blogsLoop F now l1 db).2.2.2.1 + (blogsLoop F now l2 (blogsLoop F now l1 db).1).2.2.2.1,
           (blogsLoop F now l1 db).2.2.2.2 + (blogsLoop F now l2 (blogsLoop F now l1 db).1).2.2.2.2) := by
  intro l1
  induction l1 with
  | nil =>
      intro l2 db
      show blogsLoop F now l2 db = _
      simp [blogsLoop]
  | cons b l1 ih =>
      intro l2 db
      by_cases hskip : blogSkip b
      · simp only [List.cons_append, blogsLoop, hskip, if_pos, List.append_eq]
        rw [ih l2 db]
        refine congrArg _ ?_
        refine Prod.ext rfl (Prod.ext rfl (Prod.ext ?_ rfl))
        show _ + _ + _ = _ + _ + _
        omega
      · simp only [List.cons_append, blogsLoop, hskip, Bool.false_eq_true, if_neg,
          not_false_iff, List.append_eq]
        rw [ih l2 (syncBlogItems F db b now).1]
        by_cases hsucc : (syncBlogItems F db b now).2.success
        · simp only [hsucc, if_pos]
          refine Prod.ext rfl ?_
          refine Prod.ext ?_ (Prod.ext rfl (Prod.ext rfl ?_))
          · show _ + _ + 1 = _ + 1 + _
            omega
          · show _ + _ + _ = _ + _ + _
            omega
        · simp only [hsucc, Bool.false_eq_true, if_neg, not_false_iff]
          refine Prod.ext rfl (Prod.ext rfl (Prod.ext ?_ rfl))
          show _ + _ + 1 = _ + 1 + _
          omega

theorem syncBlogItems_map_id (F : String → Except String Feed) (db : DB)
    (b : Blog) (now : Int) :
    (syncBlogItems F db b now).1.blogs.map Blog.id = db.blogs.map Blog.id := by
  unfold syncBlogItems
  cases F b.feedUrl with
  | error e => exact updateBlogStatus_map_id db.blogs b.id _ now
  | ok feed => exact updateBlogStatus_map_id db.blogs b.id _ now

theorem blogsLoop_map_id (F : String → Except String Feed) (now : Int) :
    ∀ (l : List Blog) (db : DB),
      (blogsLoop F now l db).1.blogs.map Blog.id = db.blogs.map Blog.id := by
  intro l
  induction l with
  | nil => intro db; rfl
  | cons b rest ih =>
      intro db
      by_cases hskip : blogSkip b
      · simp only [blogsLoop, hskip, if_pos]
        exact ih db
      · simp only [blogsLoop, hskip, Bool.false_eq_true, if_neg, not_false_iff]
        by_cases hsucc : (syncBlogItems F db b now).2.success
        · simp only [hsucc, if_pos]
          rw [ih, syncBlogItems_map_id]
        · simp only [hsucc, Bool.false_eq_true, if_neg, not_false_iff]
          rw [ih, syncBlogItems_map_id]

/-- Processing the failing blog itself from a common store: the success
run records the fetch, the failure run records the error on the blog's own
record, and the two stores diverge exactly there. -/
theorem syncBlogItems_diverge (FA FB : String → Except String Feed) (k : Blog)
    (fk : Feed) (e : String) (db : DB) (now : Int)
    (hA : FA k.feedUrl = .ok fk) (hB : FB k.feedUrl = .error e)
    (hku : KidUnique k.id db.blogs) :
    (syncBlogItems FA db k now).2.success = true ∧
    (syncBlogItems FB db k now).2 = ⟨false, 0, 0, some e⟩ ∧
    Diverged k.id e (syncBlogItems FA db k now).1 (syncBlogItems FB db k now).1 := by
  obtain ⟨p1, b0, p2, hsplit, hb0, hp1, hp2⟩ := hku
  have hmatch : (fun b => b.id == k.id) b0 = true := by simp [hb0]
  have hnomatch : ∀ x ∈ p1, (fun b => b.id == k.id) x = false := by
    intro x hx
    simp [hp1 x hx]
  unfold syncBlogItems
  rw [hA, hB]
  refine ⟨rfl, rfl, rfl, rfl, ?_, ?_⟩
  · intro bid hbid
    exact upsertItemsLoop_itemsFor_frame k.id bid hbid fk.items db.items now
  · refine ⟨p1,
      applyBlogStatus
        ⟨true, some fk.items.length,
          (if k.title == k.feedUrl && optTruthy fk.title then fk.title else none),
          (if !(optTruthy k.photo) && optTruthy fk.photo then fk.photo else none),
          (if k.siteUrl == "" && optTruthy fk.siteUrl then fk.siteUrl else none),
          none⟩ now b0,
      applyBlogStatus ⟨false, none, none, none, none, some e⟩ now b0,
      p2, ?_, ?_, ?_, ?_, ?_, ?_, hp1, hp2⟩
    · show updateBlogStatus db.blogs k.id _ now = _
      unfold updateBlogStatus
      rw [hsplit]
      exact updateFirst_append_first_match _ _ b0 hmatch p1 p2 hnomatch
    · show updateBlogStatus db.blogs k.id _ now = _
      unfold updateBlogStatus
      rw [hsplit]
      exact updateFirst_append_first_match _ _ b0 hmatch p1 p2 hnomatch
    · rw [applyBlogStatus_id]
      exact hb0
    · rw [applyBlogStatus_id]
      exact hb0
    · exact (applyBlogStatus_error_status (some e) now b0).1
    · exact (applyBlogStatus_error_status (some e) now b0).2

/-- The blog stage with exactly one failing fetch: zero failures in the
baseline run, exactly one failure in the diverged run, one fewer success,
identical skip tallies, and stores that agree everywhere except the
failing blog's own record and items. -/
theorem blogsLoop_one_failure
    (FA FB : String → Except String Feed) (now : Int) (k : Blog) (fk : Feed)
    (e : String)
    (hks : blogSkip k = false)
    (hA : FA k.feedUrl = .ok fk)
    (hFB : ∀ u, FB u = if u = k.feedUrl then .error e else FA u)
    (l1 l2 : List Blog) (db : DB)
    (hothers : ∀ b ∈ l1 ++ l2, b.id ≠ k.id ∧ b.feedUrl ≠ k.feedUrl)
    (hok : ∀ b ∈ l1 ++ l2, blogSkip b = false → ∃ f, FA b.feedUrl = .ok f)
    (hnodup : (db.blogs.map Blog.id).Nodup)
    (hkin : k.id ∈ db.blogs.map Blog.id) :
    (blogsLoop FA now (l1 ++ k :: l2) db).2.2.1 = 0 ∧
    (blogsLoop FB now (l1 ++ k :: l2) db).2.2.1 = 1 ∧
    (blogsLoop FB now (l1 ++ k :: l2) db).2.1 + 1
      = (blogsLoop FA now (l1 ++ k :: l2) db).2.1 ∧
    (blogsLoop FB now (l1 ++ k :: l2) db).2.2.2.1
      = (blogsLoop FA now (l1 ++ k :: l2) db).2.2.2.1 ∧
    Diverged k.id e (blogsLoop FA now (l1 ++ k :: l2) db).1
      (blogsLoop FB now (l1 ++ k :: l2) db).1 := by
  have hFBl1 : ∀ b ∈ l1, FB b.feedUrl = FA b.feedUrl := by
    intro b hb
    rw [hFB]
    exact if_neg (hothers b (List.mem_append_left _ hb)).2
  have hFBk : FB k.feedUrl = .error e := by
    rw [hFB]
    exact if_pos rfl
  rw [blogsLoop_append FA now l1 (k :: l2) db,
    blogsLoop_append FB now l1 (k :: l2) db,
    blogsLoop_congr_fetch FA FB now l1 db hFBl1]
  obtain ⟨hpf, hps⟩ := blogsLoop_all_ok FA now l1 db
    (fun b hb hs => hok b (List.mem_append_left _ hb) hs)
  have hkstep : KidUnique k.id (blogsLoop FA now l1 db).1.blogs :=
    kidUnique_of_nodup _ _ (by rw [blogsLoop_map_id]; exact hnodup)
      (by rw [blogsLoop_map_id]; exact hkin)
  obtain ⟨hAsucc, hBres, hdiv⟩ :=
    syncBlogItems_diverge FA FB k fk e (blogsLoop FA now l1 db).1 now hA hFBk hkstep
  have hBsuccF : (syncBlogItems FB (blogsLoop FA now l1 db).1 k now).2.success = false := by
    rw [hBres]
  have hKA : blogsLoop FA now (k :: l2) (blogsLoop FA now l1 db).1
      = ((blogsLoop FA now l2 (syncBlogItems FA (blogsLoop FA now l1 db).1 k now).1).1,
         (blogsLoop FA now l2 (syncBlogItems FA (blogsLoop FA now l1 db).1 k now).1).2.1 + 1,
         (blogsLoop FA now l2 (syncBlogItems FA (blogsLoop FA now l1 db).1 k now).1).2.2.1,
         (blogsLoop FA now l2 (syncBlogItems FA (blogsLoop FA now l1 db).1 k now).1).2.2.2.1,
         (blogsLoop FA now l2 (syncBlogItems FA (blogsLoop FA now l1 db).1 k now).1).2.2.2.2
           + (syncBlogItems FA (blogsLoop FA now l1 db).1 k now).2.added) := by
    simp only [blogsLoop, hks, Bool.false_eq_true, if_neg, not_false_iff, hAsucc,
      if_pos]
  have hKB : blogsLoop FB now (k :: l2) (blogsLoop FA now l1 db).1
      = ((blogsLoop FB now l2 (syncBlogItems FB (blogsLoop FA now l1 db).1 k now).1).1,
         (blogsLoop FB now l2 (syncBlogItems FB (blogsLoop FA now l1 db).1 k now).1).2.1,
         (blogsLoop FB now l2 (syncBlogItems FB (blogsLoop FA now l1 db).1 k now).1).2.2.1 + 1,
         (blogsLoop FB now l2 (syncBlogItems FB (blogsLoop FA now l1 db).1 k now).1).2.2.2.1,
         (blogsLoop FB now l2 (syncBlogItems FB (blogsLoop FA now l1 db).1 k now).1).2.2.2.2) := by
    simp only [blogsLoop, hks, Bool.false_eq_true, if_neg, not_false_iff, hBsuccF]
  obtain ⟨hsufres, hsufdiv⟩ := blogsLoop_diverged FA FB now k.id e l2
    (fun b hb => ⟨(hothers b (List.mem_append_right _ hb)).1, by
      rw [hFB]
      exact if_neg (hothers b (List.mem_append_right _ hb)).2⟩)
    (syncBlogItems FA (blogsLoop FA now l1 db).1 k now).1
    (syncBlogItems FB (blogsLoop FA now l1 db).1 k now).1 hdiv
  obtain ⟨hsf, hss⟩ := blogsLoop_all_ok FA now l2
    (syncBlogItems FA (blogsLoop FA now l1 db).1 k now).1
    (fun b hb hs => hok b (List.mem_append_right _ hb) hs)
  have hc1 : (blogsLoop FB now l2 (syncBlogItems FB (blogsLoop FA now l1 db).1 k now).1).2.1
      = (blogsLoop FA now l2 (syncBlogItems FA (blogsLoop FA now l1 db).1 k now).1).2.1 := by
    rw [hsufres]
  have hc2 : (blogsLoop FB now l2 (syncBlogItems FB (blogsLoop FA now l1 db).1 k now).1).2.2.1
      = (blogsLoop FA now l2 (syncBlogItems FA (blogsLoop FA now l1 db).1 k now).1).2.2.1 := by
    rw [hsufres]
  have hc3 : (blogsLoop FB now l2 (syncBlogItems FB (blogsLoop FA now l1 db).1 k now).1).2.2.2.1
      = (blogsLoop FA now l2 (syncBlogItems FA (blogsLoop FA now l1 db).1 k now).1).2.2.2.1 := by
    rw [hsufres]
  rw [hKA, hKB]
  refine ⟨?_, ?_, ?_, ?_, hsufdiv⟩
  · simp only
    omega
  · simp only
    rw [hc2]
    omega
  · simp only
    rw [hc1]
    omega
  · simp only
    rw [hc3]

/-- C3: two full runs sharing the clock, the source adapters and the
statistics write, whose fetch environments differ only in that exactly one
scheduled, non-skipped blog's feed fetch fails in the second run: that
blog's individual sync result is `success = false` with the error message;
the run still completes with `success = true` and `blogs.failed = 1`
(against 0 in the baseline) and exactly one fewer blog success; and the
two final stores agree on every other blog's record and every other
blog's items — the failure is recorded only on the failing blog's own
record, which ends with status `error` and the stored message. -/
theorem runFullSync_failure_isolation
    (S : Source → DB → DB × Except String Bool) (M : RunStats → Except String Unit)
    (now : Int) (FA FB : String → Except String Feed)
    (st : SchedState) (opts : RunOptions)
    (k : Blog) (fk : Feed) (e : String) (l1 l2 : List Blog)
    (hrun : st.isRunning = false)
    (hM : ∀ s2, M s2 = Except.ok ())
    (hsched : scheduledBlogs S now opts.maxItemAge st.db = l1 ++ k :: l2)
    (hks : blogSkip k = false)
    (hA : FA k.feedUrl = Except.ok fk)
    (hFB : ∀ u, FB u = if u = k.feedUrl then Except.error e else FA u)
    (hothers : ∀ b ∈ l1 ++ l2, b.id ≠ k.id ∧ b.feedUrl ≠ k.feedUrl)
    (hok : ∀ b ∈ l1 ++ l2, blogSkip b = false → ∃ f, FA b.feedUrl = Except.ok f)
    (hnodup : ((schedulerSourceStage S now opts.maxItemAge st.db).1.blogs.map Blog.id).Nodup)
    (hkin : k.id ∈ (schedulerSourceStage S now opts.maxItemAge st.db).1.blogs.map Blog.id) :
    ∃ statsA statsB,
      (runFullSync ⟨now, FA, S, M⟩ st opts).1 = RunResult.completed statsA ∧
      (runFullSync ⟨now, FB, S, M⟩ st opts).1 = RunResult.completed statsB ∧
      statsA.blogsFailed = 0 ∧ statsB.blogsFailed = 1 ∧
      statsB.blogsSuccess + 1 = statsA.blogsSuccess ∧
      statsB.blogsTotal = statsA.blogsTotal ∧
      (∀ db0 : DB, (syncBlogItems FB db0 k now).2 = ⟨false, 0, 0, some e⟩) ∧
      (∀ bid, bid ≠ k.id →
        itemsFor bid (runFullSync ⟨now, FA, S, M⟩ st opts).2.db.items
          = itemsFor bid (runFullSync ⟨now, FB, S, M⟩ st opts).2.db.items) ∧
      (∃ p1 bA bB p2,
        (runFullSync ⟨now, FA, S, M⟩ st opts).2.db.blogs = p1 ++ bA :: p2 ∧
        (runFullSync ⟨now, FB, S, M⟩ st opts).2.db.blogs = p1 ++ bB :: p2 ∧
        bA.id = k.id ∧ bB.id = k.id ∧ bB.status = "error" ∧ bB.lastError = some e ∧
        (∀ b ∈ p1, b.id ≠ k.id) ∧ (∀ b ∈ p2, b.id ≠ k.id)) := by
  obtain ⟨hfa, hfb, hsucc, hskipeq, hdiv⟩ :=
    blogsLoop_one_failure FA FB now k fk e hks hA hFB l1 l2
      (schedulerSourceStage S now opts.maxItemAge st.db).1 hothers hok hnodup hkin
  have hrunRed : ∀ F : String → Except String Feed,
      runFullSync ⟨now, F, S, M⟩ st opts
        = (RunResult.completed (runBody ⟨now, F, S, M⟩ opts st.db).1,
           { db := writeMeta (runBody ⟨now, F, S, M⟩ opts st.db).1
                (runBody ⟨now, F, S, M⟩ opts st.db).2,
             isRunning := false }) := by
    intro F
    unfold runFullSync
    rw [if_neg (by simp [hrun])]
    have hmw : SyncEnv.metaWrite ⟨now, F, S, M⟩ (runBody ⟨now, F, S, M⟩ opts st.db).1
        = Except.ok () := hM _
    rw [hmw]
  have hbodyStats : ∀ F : String → Except String Feed,
      (runBody ⟨now, F, S, M⟩ opts st.db).1.blogsFailed
          = (blogsLoop F now (l1 ++ k :: l2)
              (schedulerSourceStage S now opts.maxItemAge st.db).1).2.2.1 ∧
      (runBody ⟨now, F, S, M⟩ opts st.db).1.blogsSuccess
          = (blogsLoop F now (l1 ++ k :: l2)
              (schedulerSourceStage S now opts.maxItemAge st.db).1).2.1 ∧
      (runBody ⟨now, F, S, M⟩ opts st.db).1.blogsTotal = (l1 ++ k :: l2).length ∧
      (runBody ⟨now, F, S, M⟩ opts st.db).2
          = (blogsLoop F now (l1 ++ k :: l2)
              (schedulerSourceStage S now opts.maxItemAge st.db).1).1 := by
    intro F
    unfold runBody
    dsimp only
    rw [hsched]
    exact ⟨rfl, rfl, rfl, rfl⟩
  obtain ⟨hAf, hAs, hAt, hAdb⟩ := hbodyStats FA
  obtain ⟨hBf, hBs, hBt, hBdb⟩ := hbodyStats FB
  obtain ⟨hdsrc, hdmeta, hditems, p1, bA, bB, p2, hdA, hdB, hidA, hidB, hstB,
    herrB, hp1, hp2⟩ := hdiv
  refine ⟨(runBody ⟨now, FA, S, M⟩ opts st.db).1, (runBody ⟨now, FB, S, M⟩ opts st.db).1,
    ?_, ?_, ?_, ?_, ?_, ?_, ?_, ?_, ?_⟩
  · rw [hrunRed FA]
  · rw [hrunRed FB]
  · rw [hAf]; exact hfa
  · rw [hBf]; exact hfb
  · rw [hAs, hBs]; exact hsucc
  · rw [hAt, hBt]
  · intro db0
    unfold syncBlogItems
    rw [hFB]
    rw [if_pos rfl]
  · intro bid hbid
    rw [hrunRed FA, hrunRed FB]
    show itemsFor bid (writeMeta _ _).items = itemsFor bid (writeMeta _ _).items
    unfold writeMeta
    dsimp only
    rw [hAdb, hBdb]
    exact hditems bid hbid
  · refine ⟨p1, bA, bB, p2, ?_, ?_, hidA, hidB, hstB, herrB, hp1, hp2⟩
    · rw [hrunRed FA]
      show (writeMeta _ _).blogs = _
      unfold writeMeta
      dsimp only
      rw [hAdb]
      exact hdA
    · rw [hrunRed FB]
      show (writeMeta _ _).blogs = _
      unfold writeMeta
      dsimp only
      rw [hBdb]
      exact hdB

/-- First scheduled blog of the C3 witness scenario. -/
def c3BlogOne : Blog :=
  { sampleDeletedBlog with
    id := 1, sourceId := none, title := "A1",
    feedUrl := "https://u1.example/feed", siteUrl := "https://u1.example",
    status := "active", hidden := false, deletedAt := none }

/-- Second scheduled blog (the failing one) of the C3 witness scenario. -/
def c3BlogTwo : Blog :=
  { sampleDeletedBlog with
    id := 2, sourceId := none, title := "A2",
    feedUrl := "https://u2.example/feed", siteUrl := "https://u2.example",
    status := "active", hidden := false, deletedAt := none }

/-- The witness store: no sources, two fetchable blogs, no items. -/
def c3DB : DB := { sources := [], blogs := [c3BlogOne, c3BlogTwo], items := [], meta := none }

/-- A trivial adapter dispatch for the witness. -/
def c3S : Source → DB → DB × Except String Bool := fun _ db => (db, .ok true)

/-- A statistics write that always resolves. -/
def c3M : RunStats → Except String Unit := fun _ => .ok ()

/-- The baseline fetch environment: every feed resolves to an empty feed. -/
def c3FA : String → Except String Feed := fun _ => .ok emptyFeed

/-- The diverged fetch environment: the second blog's feed fails. -/
def c3FB : String → Except String Feed :=
  fun u => if u = "https://u2.example/feed" then .error "boom" else c3FA u

theorem runFullSync_failure_isolation_witness :
    ∃ statsA statsB,
      (runFullSync ⟨0, c3FA, c3S, c3M⟩ ⟨c3DB, false⟩ defaultOptions).1
        = RunResult.completed statsA ∧
      (runFullSync ⟨0, c3FB, c3S, c3M⟩ ⟨c3DB, false⟩ defaultOptions).1
        = RunResult.completed statsB ∧
      statsA.blogsFailed = 0 ∧ statsB.blogsFailed = 1 ∧
      statsB.blogsSuccess + 1 = statsA.blogsSuccess ∧
      statsB.blogsTotal = statsA.blogsTotal ∧
      (∀ db0 : DB, (syncBlogItems c3FB db0 c3BlogTwo 0).2 = ⟨false, 0, 0, some "boom"⟩) ∧
      (∀ bid, bid ≠ c3BlogTwo.id →
        itemsFor bid (runFullSync ⟨0, c3FA, c3S, c3M⟩ ⟨c3DB, false⟩ defaultOptions).2.db.items
          = itemsFor bid (runFullSync ⟨0, c3FB, c3S, c3M⟩ ⟨c3DB, false⟩ defaultOptions).2.db.items) ∧
      (∃ p1 bA bB p2,
        (runFullSync ⟨0, c3FA, c3S, c3M⟩ ⟨c3DB, false⟩ defaultOptions).2.db.blogs
          = p1 ++ bA :: p2 ∧
        (runFullSync ⟨0, c3FB, c3S, c3M⟩ ⟨c3DB, false⟩ defaultOptions).2.db.blogs
          = p1 ++ bB :: p2 ∧
        bA.id = c3BlogTwo.id ∧ bB.id = c3BlogTwo.id ∧
        bB.status = "error" ∧ bB.lastError = some "boom" ∧
        (∀ b ∈ p1, b.id ≠ c3BlogTwo.id) ∧ (∀ b ∈ p2, b.id ≠ c3BlogTwo.id)) :=
  runFullSync_failure_isolation c3S c3M 0 c3FA c3FB ⟨c3DB, false⟩ defaultOptions
    c3BlogTwo emptyFeed "boom" [c3BlogOne] []
    rfl (fun _ => rfl) (by decide) (by decide) rfl (fun u => rfl)
    (by decide) (fun b _ _ => ⟨emptyFeed, rfl⟩) (by decide) (by decide)

end Blogroll
